import Mathlib

set_option maxHeartbeats 1000000

/-!
Shallow embedding of the generic worker actuator deletion flow
(`pkg/controller/worker/genericactuator/actuator_delete.go`) and of the
generic controlplane webhook mutator (`genericmutator`) of the
`gardener-extensions` repository.

Stateful Go code is embedded by explicit state passing: the Kubernetes
client is replaced by environment records that provide, for every store
operation the code performs, the outcome that operation would have
(listed items, or an error).  Go `error` values are modelled as `String`
(for collaborator errors) or as structured inductive types where the
code itself builds the error.
-/

/- ---------------------------------------------------------------------
   Labels: Go `map[string]string` modelled as an association list.
   Lookup returns the first binding; insertion overwrites in place.
   The nil-map initialisation in `markMachineForcefulDeletion`
   (lines 150-152) is the identity in this model because lookup and
   insertion on the empty list already behave like an empty map.
--------------------------------------------------------------------- -/

def getLabel : List (String × String) → String → Option String
  | [], _ => none
  | (k', v') :: ls, k => if k' = k then some v' else getLabel ls k

def setLabel : List (String × String) → String → String → List (String × String)
  | [], k, v => [(k, v)]
  | (k', v') :: ls, k, v => if k' = k then (k, v) :: ls else (k', v') :: setLabel ls k v

def forceDeletionLabelKey : String := "force-deletion"

def forceDeletionLabelValue : String := "True"

/-- A `machinev1alpha1.Machine`: only the fields the deletion flow reads. -/
structure Machine where
  name : String
  labels : List (String × String)
deriving DecidableEq

/-- Result of `markMachineForcefulDeletion`: the machine object after the
call (the Go code mutates the local object in place), the number of
`client.Update` calls issued, and the error returned. -/
structure MarkResult where
  machine : Machine
  updateCalls : Nat
  error : Option String
deriving DecidableEq

/-- `markMachineForcefulDeletion` (actuator_delete.go lines 149-160).
`updateErr m` is the outcome of `a.client.Update(ctx, m)`: `none` on
success, `some e` when the store rejects the update. -/
def markMachineForcefulDeletion (updateErr : Machine → Option String) (m : Machine) : MarkResult :=
  if getLabel m.labels forceDeletionLabelKey = some forceDeletionLabelValue then
    ⟨m, 0, none⟩
  else
    let m' : Machine := { m with labels := setLabel m.labels forceDeletionLabelKey forceDeletionLabelValue }
    ⟨m', 1, updateErr m'⟩

/-- Errors produced by `markAllMachinesForcefulDeletion`: the initial list
call failing, or the aggregate "labelling machines ... failed" error
carrying every collected per-machine failure. -/
inductive MarkAllError
  | listFailed (e : String)
  | labellingFailed (errs : List String)
deriving DecidableEq

/-- Result of `markAllMachinesForcefulDeletion`: the machines as stored
after the call (an update that failed leaves the stored object
unchanged; a successful one persists the labelled object), plus the
returned error if any. -/
structure MarkAllResult where
  stored : List Machine
  error : Option MarkAllError
deriving DecidableEq

/-- `markAllMachinesForcefulDeletion` (actuator_delete.go lines 117-146).
The concurrent fan-out (one goroutine per machine) is embedded as a map
over the machine list: one labelling task per machine, errors collected
into `errorList`, aggregated into a single error when non-empty. -/
def markAllMachinesForcefulDeletion (listMachinesErr : Option String)
    (updateErr : Machine → Option String) (machines : List Machine) : MarkAllResult :=
  match listMachinesErr with
  | some e => ⟨machines, some (.listFailed e)⟩
  | none =>
    let stored := machines.map (fun m =>
      let r := markMachineForcefulDeletion updateErr m
      if r.error = none then r.machine else m)
    let errorList := machines.filterMap (fun m => (markMachineForcefulDeletion updateErr m).error)
    if errorList = [] then ⟨stored, none⟩ else ⟨stored, some (.labellingFailed errorList)⟩

/- ---------------------------------------------------------------------
   The convergence wait (`waitUntilMachineResourcesDeleted`,
   actuator_delete.go lines 165-250).
--------------------------------------------------------------------- -/

/-- A `FailedMachine` entry of a MachineDeployment status: its name and
its last operation's description. -/
structure FailedMachine where
  name : String
  lastOperationDescription : String
deriving DecidableEq

/-- A `machinev1alpha1.MachineDeployment`: only name and status failed
machines are read by the wait loop. -/
structure MachineDeployment where
  name : String
  failedMachines : List FailedMachine
deriving DecidableEq

/-- A `machinev1alpha1.MachineSet` (only counted by the wait loop). -/
structure MachineSet where
  name : String
deriving DecidableEq

/-- A provider machine class (only counted by the wait loop, via
`workerDelegate.MachineClassList` and `meta.ExtractList`). -/
structure MachineClass where
  name : String
deriving DecidableEq

/-- A machine class secret: the wait loop only counts those that still
carry finalizers. -/
structure MachineClassSecret where
  name : String
  finalizers : List String
deriving DecidableEq

/-- The five resource types polled by the wait loop. -/
inductive ResourceKind
  | machines
  | machineSets
  | machineDeployments
  | machineClasses
  | machineClassSecrets
deriving DecidableEq

/-- The five mutable counters of `waitUntilMachineResourcesDeleted`
(initialised to -1, hence `Int`). -/
structure Counts where
  countMachines : Int
  countMachineSets : Int
  countMachineDeployments : Int
  countMachineClasses : Int
  countMachineClassSecrets : Int
deriving DecidableEq

def countOf (c : Counts) : ResourceKind → Int
  | .machines => c.countMachines
  | .machineSets => c.countMachineSets
  | .machineDeployments => c.countMachineDeployments
  | .machineClasses => c.countMachineClasses
  | .machineClassSecrets => c.countMachineClassSecrets

def initialCounts : Counts := ⟨-1, -1, -1, -1, -1⟩

/-- What one tick of the poll loop observes from the store: for each
resource type, either the listed items or a list error.  The
`meta.ExtractList` error of the machine-class branch is folded into the
same `Except`. -/
structure TickData where
  machines : Except String (List Machine)
  machineSets : Except String (List MachineSet)
  machineDeployments : Except String (List MachineDeployment)
  machineClasses : Except String (List MachineClass)
  machineClassSecrets : Except String (List MachineClassSecret)

/-- An error with which the poll condition function returns
`(false, err)`: a failed list call, or the fatal failed-machine error
built at lines 208-210. -/
inductive WaitError
  | listErr (e : String)
  | failedMachine (name : String) (description : String)
deriving DecidableEq

/-- Accumulator threaded through the five query blocks of one tick: the
counters, the resource types queried so far this tick, and the progress
message built so far.  The Go code builds `msg` by appending one
`fmt.Sprintf("%d <type>, ", count)` piece per queried type; the message
is modelled as the list of its (type, count) pieces in order. -/
structure TickAcc where
  counts : Counts
  queried : List ResourceKind
  summary : List (ResourceKind × Int)
deriving DecidableEq

/-- One of the four structurally identical query blocks (machines,
machine sets, machine classes, machine class secrets): if the stored
counter is non-zero, perform the list call (`obs` is its observed count,
or an error), update the counter and append a progress piece; otherwise
skip the block entirely. -/
def simpleStage (k : ResourceKind) (get : Counts → Int) (set : Counts → Int → Counts)
    (obs : Except String Int) (acc : TickAcc) : Except (List ResourceKind × WaitError) TickAcc :=
  if get acc.counts ≠ 0 then
    match obs with
    | .error e => .error (acc.queried ++ [k], .listErr e)
    | .ok n => .ok ⟨set acc.counts n, acc.queried ++ [k], acc.summary ++ [(k, n)]⟩
  else .ok acc

/-- Lines 178-185: the machines block. -/
def machinesStage (d : TickData) (acc : TickAcc) : Except (List ResourceKind × WaitError) TickAcc :=
  simpleStage .machines (fun c => c.countMachines)
    (fun c n => { c with countMachines := n })
    (d.machines.map (fun ms => (ms.length : Int))) acc

/-- Lines 188-195: the machine sets block. -/
def machineSetsStage (d : TickData) (acc : TickAcc) : Except (List ResourceKind × WaitError) TickAcc :=
  simpleStage .machineSets (fun c => c.countMachineSets)
    (fun c n => { c with countMachineSets := n })
    (d.machineSets.map (fun ms => (ms.length : Int))) acc

/-- Lines 207-211: the inner double loop returns the first failed machine
of the first listed MachineDeployment whose status carries any. -/
def firstFailedMachine : List MachineDeployment → Option FailedMachine
  | [] => none
  | md :: rest =>
    match md.failedMachines with
    | [] => firstFailedMachine rest
    | fm :: _ => some fm

/-- Lines 198-212: the machine deployments block.  After a successful
list call the counter and progress piece are recorded and the failed
machine check runs; a failed machine aborts the tick with the fatal
error built from its name and last-operation description. -/
def machineDeploymentsStage (d : TickData) (acc : TickAcc) :
    Except (List ResourceKind × WaitError) TickAcc :=
  if acc.counts.countMachineDeployments ≠ 0 then
    match d.machineDeployments with
    | .error e => .error (acc.queried ++ [.machineDeployments], .listErr e)
    | .ok mds =>
      match firstFailedMachine mds with
      | some fm => .error (acc.queried ++ [.machineDeployments],
          .failedMachine fm.name fm.lastOperationDescription)
      | none => .ok ⟨{ acc.counts with countMachineDeployments := (mds.length : Int) },
          acc.queried ++ [.machineDeployments],
          acc.summary ++ [(.machineDeployments, (mds.length : Int))]⟩
  else .ok acc

/-- Lines 215-226: the machine classes block. -/
def machineClassesStage (d : TickData) (acc : TickAcc) : Except (List ResourceKind × WaitError) TickAcc :=
  simpleStage .machineClasses (fun c => c.countMachineClasses)
    (fun c n => { c with countMachineClasses := n })
    (d.machineClasses.map (fun ms => (ms.length : Int))) acc

/-- Lines 229-242: the machine class secrets block; only secrets still
carrying finalizers are counted. -/
def machineClassSecretsStage (d : TickData) (acc : TickAcc) :
    Except (List ResourceKind × WaitError) TickAcc :=
  simpleStage .machineClassSecrets (fun c => c.countMachineClassSecrets)
    (fun c n => { c with countMachineClassSecrets := n })
    (d.machineClassSecrets.map (fun ss => ((ss.filter (fun s => s.finalizers ≠ [])).length : Int)))
    acc

/-- The five query blocks of one tick, in source order. -/
def tickQueries (c : Counts) (d : TickData) : Except (List ResourceKind × WaitError) TickAcc :=
  (((machinesStage d ⟨c, [], []⟩).bind (machineSetsStage d)).bind
      (machineDeploymentsStage d)).bind (machineClassesStage d) |>.bind
    (machineClassSecretsStage d)

/-- Outcome of the poll condition function for one tick:
`(true, nil)`, `(false, nil)` with the updated counters, or
`(false, err)`. -/
inductive TickOutcome
  | finished
  | pending (c : Counts)
  | failed (e : WaitError)
deriving DecidableEq

/-- One tick's full result: which types were queried, the progress
summary pieces (the Go code only logs the message on a `(false, nil)`
tick, so the summary is empty on a failed tick), and the outcome. -/
structure TickResult where
  queried : List ResourceKind
  summary : List (ResourceKind × Int)
  outcome : TickOutcome
deriving DecidableEq

/-- One execution of the poll condition function (lines 174-248): run the
five query blocks, then return `(true, nil)` exactly when all five
counters are zero (line 244). -/
def tickStep (c : Counts) (d : TickData) : TickResult :=
  match tickQueries c d with
  | .error (q, e) => ⟨q, [], .failed e⟩
  | .ok acc =>
    if acc.counts.countMachines ≠ 0 ∨ acc.counts.countMachineSets ≠ 0 ∨
        acc.counts.countMachineDeployments ≠ 0 ∨ acc.counts.countMachineClasses ≠ 0 ∨
        acc.counts.countMachineClassSecrets ≠ 0 then
      ⟨acc.queried, acc.summary, .pending acc.counts⟩
    else ⟨acc.queried, acc.summary, .finished⟩

/-- Result of `wait.PollUntil`: the condition returned `true`, the
deadline/cancellation fired first (`wait.ErrWaitTimeout`), or the
condition returned an error, which `PollUntil` surfaces as-is. -/
inductive WaitResult
  | success
  | timeout
  | condErr (e : WaitError)
deriving DecidableEq

/-- The poll loop: tick `t` observes `env t`; `fuel` is the number of
ticks the 30-minute deadline still allows; exhausting it yields the
timeout error. -/
def runWaitFrom (env : Nat → TickData) : Nat → Nat → Counts → WaitResult
  | _, 0, _ => .timeout
  | t, fuel + 1, c =>
    match (tickStep c (env t)).outcome with
    | .finished => .success
    | .failed e => .condErr e
    | .pending c' => runWaitFrom env (t + 1) fuel c'

/-- `waitUntilMachineResourcesDeleted` (lines 165-250): all five counters
start at -1, then `wait.PollUntil` drives the tick function. -/
def waitUntilMachineResourcesDeleted (env : Nat → TickData) (fuel : Nat) : WaitResult :=
  runWaitFrom env 0 fuel initialCounts

/-- The trace of tick results of a poll-loop run (for stating properties
about individual ticks: the run stops after a finished or failed tick). -/
def runTraceFrom (env : Nat → TickData) : Nat → Nat → Counts → List TickResult
  | _, 0, _ => []
  | t, fuel + 1, c =>
    let r := tickStep c (env t)
    match r.outcome with
    | .pending c' => r :: runTraceFrom env (t + 1) fuel c'
    | _ => [r]

/- ---------------------------------------------------------------------
   `Delete` (actuator_delete.go lines 44-114): the ordered teardown.
--------------------------------------------------------------------- -/

/-- The sequential steps of `Delete`, in source order. -/
inductive DeleteStage
  | instantiateDelegate
  | getMCMDeployment
  | scaleMCM
  | applyMCMShootChart
  | markMachinesForcefulDeletion
  | listMachineDeployments
  | cleanupMachineDeployments
  | cleanupMachineClasses
  | cleanupMachineClassSecrets
  | waitForMachineResources
  | createShootClients
  | deleteMCMShootChart
  | deleteMCMSeedChart
deriving DecidableEq

/-- The wrapped error `Delete` returns, tagged by the failing step. -/
inductive DeleteError
  | delegateFailed (e : String)
  | getMCMFailed (e : String)
  | scaleFailed (e : String)
  | shootChartFailed (e : String)
  | markFailed (e : MarkAllError)
  | listMachineDeploymentsFailed (e : String)
  | cleanupMachineDeploymentsFailed (e : String)
  | cleanupMachineClassesFailed (e : String)
  | cleanupMachineClassSecretsFailed (e : String)
  | waitFailed (e : WaitResult)
  | shootClientsFailed (e : String)
  | mcmShootChartDeleteFailed (e : String)
  | mcmSeedChartDeleteFailed (e : String)
deriving DecidableEq

/-- Environment of one `Delete` call: the outcome each collaborator call
would have. -/
structure DeleteEnv where
  delegateErr : Option String
  getMCMDeploymentErr : Option String
  scaleErr : Option String
  shootChartErr : Option String
  machines : List Machine
  listMachinesErr : Option String
  updateErr : Machine → Option String
  listMachineDeploymentsErr : Option String
  cleanupMachineDeploymentsErr : Option String
  cleanupMachineClassesErr : Option String
  cleanupMachineClassSecretsErr : Option String
  waitTicks : Nat → TickData
  waitFuel : Nat
  shootClientsErr : Option String
  mcmShootChartDeleteErr : Option String
  mcmSeedChartDeleteErr : Option String

/-- Result of one `Delete` call: the returned error (`none` on success),
the steps that were started, in order, and the machines as stored after
the call. -/
structure DeleteResult where
  error : Option DeleteError
  stages : List DeleteStage
  finalMachines : List Machine

/-- `Delete` (lines 44-114), embedded with explicit early returns: each
`if err != nil { return ... }` of the source becomes a `match` on the
corresponding environment field, and the list of started steps records
how far the call progressed. -/
def Delete (env : DeleteEnv) : DeleteResult :=
  match env.delegateErr with
  | some e => ⟨some (.delegateFailed e), [.instantiateDelegate], env.machines⟩
  | none =>
  match env.getMCMDeploymentErr with
  | some e => ⟨some (.getMCMFailed e), [.instantiateDelegate, .getMCMDeployment], env.machines⟩
  | none =>
  match env.scaleErr with
  | some e => ⟨some (.scaleFailed e),
      [.instantiateDelegate, .getMCMDeployment, .scaleMCM], env.machines⟩
  | none =>
  match env.shootChartErr with
  | some e => ⟨some (.shootChartFailed e),
      [.instantiateDelegate, .getMCMDeployment, .scaleMCM, .applyMCMShootChart], env.machines⟩
  | none =>
  let mr := markAllMachinesForcefulDeletion env.listMachinesErr env.updateErr env.machines
  match mr.error with
  | some e => ⟨some (.markFailed e),
      [.instantiateDelegate, .getMCMDeployment, .scaleMCM, .applyMCMShootChart,
        .markMachinesForcefulDeletion], mr.stored⟩
  | none =>
  match env.listMachineDeploymentsErr with
  | some e => ⟨some (.listMachineDeploymentsFailed e),
      [.instantiateDelegate, .getMCMDeployment, .scaleMCM, .applyMCMShootChart,
        .markMachinesForcefulDeletion, .listMachineDeployments], mr.stored⟩
  | none =>
  match env.cleanupMachineDeploymentsErr with
  | some e => ⟨some (.cleanupMachineDeploymentsFailed e),
      [.instantiateDelegate, .getMCMDeployment, .scaleMCM, .applyMCMShootChart,
        .markMachinesForcefulDeletion, .listMachineDeployments, .cleanupMachineDeployments],
      mr.stored⟩
  | none =>
  match env.cleanupMachineClassesErr with
  | some e => ⟨some (.cleanupMachineClassesFailed e),
      [.instantiateDelegate, .getMCMDeployment, .scaleMCM, .applyMCMShootChart,
        .markMachinesForcefulDeletion, .listMachineDeployments, .cleanupMachineDeployments,
        .cleanupMachineClasses], mr.stored⟩
  | none =>
  match env.cleanupMachineClassSecretsErr with
  | some e => ⟨some (.cleanupMachineClassSecretsFailed e),
      [.instantiateDelegate, .getMCMDeployment, .scaleMCM, .applyMCMShootChart,
        .markMachinesForcefulDeletion, .listMachineDeployments, .cleanupMachineDeployments,
        .cleanupMachineClasses, .cleanupMachineClassSecrets], mr.stored⟩
  | none =>
  match waitUntilMachineResourcesDeleted env.waitTicks env.waitFuel with
  | .timeout => ⟨some (.waitFailed .timeout),
      [.instantiateDelegate, .getMCMDeployment, .scaleMCM, .applyMCMShootChart,
        .markMachinesForcefulDeletion, .listMachineDeployments, .cleanupMachineDeployments,
        .cleanupMachineClasses, .cleanupMachineClassSecrets, .waitForMachineResources], mr.stored⟩
  | .condErr e => ⟨some (.waitFailed (.condErr e)),
      [.instantiateDelegate, .getMCMDeployment, .scaleMCM, .applyMCMShootChart,
        .markMachinesForcefulDeletion, .listMachineDeployments, .cleanupMachineDeployments,
        .cleanupMachineClasses, .cleanupMachineClassSecrets, .waitForMachineResources], mr.stored⟩
  | .success =>
  match env.shootClientsErr with
  | some e => ⟨some (.shootClientsFailed e),
      [.instantiateDelegate, .getMCMDeployment, .scaleMCM, .applyMCMShootChart,
        .markMachinesForcefulDeletion, .listMachineDeployments, .cleanupMachineDeployments,
        .cleanupMachineClasses, .cleanupMachineClassSecrets, .waitForMachineResources,
        .createShootClients], mr.stored⟩
  | none =>
  match env.mcmShootChartDeleteErr with
  | some e => ⟨some (.mcmShootChartDeleteFailed e),
      [.instantiateDelegate, .getMCMDeployment, .scaleMCM, .applyMCMShootChart,
        .markMachinesForcefulDeletion, .listMachineDeployments, .cleanupMachineDeployments,
        .cleanupMachineClasses, .cleanupMachineClassSecrets, .waitForMachineResources,
        .createShootClients, .deleteMCMShootChart], mr.stored⟩
  | none =>
  match env.mcmSeedChartDeleteErr with
  | some e => ⟨some (.mcmSeedChartDeleteFailed e),
      [.instantiateDelegate, .getMCMDeployment, .scaleMCM, .applyMCMShootChart,
        .markMachinesForcefulDeletion, .listMachineDeployments, .cleanupMachineDeployments,
        .cleanupMachineClasses, .cleanupMachineClassSecrets, .waitForMachineResources,
        .createShootClients, .deleteMCMShootChart, .deleteMCMSeedChart], mr.stored⟩
  | none => ⟨none,
      [.instantiateDelegate, .getMCMDeployment, .scaleMCM, .applyMCMShootChart,
        .markMachinesForcefulDeletion, .listMachineDeployments, .cleanupMachineDeployments,
        .cleanupMachineClasses, .cleanupMachineClassSecrets, .waitForMachineResources,
        .createShootClients, .deleteMCMShootChart, .deleteMCMSeedChart], mr.stored⟩

/- ---------------------------------------------------------------------
   The generic controlplane webhook mutator (`genericmutator`).
--------------------------------------------------------------------- -/

/-- A `corev1.Service` (name plus an opaque payload the ensurer may
mutate). -/
structure Service where
  name : String
  payload : String
deriving DecidableEq

/-- An `appsv1.Deployment`. -/
structure Deployment where
  name : String
  payload : String
deriving DecidableEq

/-- An `appsv1.StatefulSet`. -/
structure StatefulSet where
  name : String
  namespaceName : String
  payload : String
deriving DecidableEq

/-- An `extensionscontroller.Cluster` (opaque for the dispatcher). -/
structure Cluster where
  name : String
deriving DecidableEq

/-- A `unit.UnitOption` of the kubelet.service unit. -/
structure UnitOption where
  sectionName : String
  name : String
  value : String
deriving DecidableEq

/-- A `kubeletconfigv1beta1.KubeletConfiguration` (opaque structured
value for the dispatcher; only its identity matters here). -/
structure KubeletConfiguration where
  data : String
deriving DecidableEq

/-- An `extensionsv1alpha1.FileContentInline`: encoding tag plus encoded
data. -/
structure FileContentInline where
  encoding : String
  data : String
deriving DecidableEq

/-- An `extensionsv1alpha1.File`: path, permissions and (inline)
content.  Only the `Content.Inline` variant of `FileContent` is read or
written by this code, so it is modelled directly. -/
structure File where
  path : String
  permissions : Option Int
  contentInline : Option FileContentInline
deriving DecidableEq

/-- An `extensionsv1alpha1.Unit` of an OperatingSystemConfig. -/
structure OSCUnit where
  name : String
  content : Option String
deriving DecidableEq

/-- An `extensionsv1alpha1.OperatingSystemConfig`: purpose, namespace,
units and files are the fields the mutator reads or writes. -/
structure OperatingSystemConfig where
  purpose : String
  namespaceName : String
  units : List OSCUnit
  files : List File
deriving DecidableEq

/-- The well-known object names the dispatcher matches on (constants of
the external `gardener/pkg/operation/common` package). -/
def kubeAPIServerDeploymentName : String := "kube-apiserver"

def kubeControllerManagerDeploymentName : String := "kube-controller-manager"

def kubeSchedulerDeploymentName : String := "kube-scheduler"

def etcdMainStatefulSetName : String := "etcd-main"

def etcdEventsStatefulSetName : String := "etcd-events"

/-- `extensionsv1alpha1.OperatingSystemConfigPurposeReconcile`. -/
def oscPurposeReconcile : String := "reconcile"

/-- `cloudinit.B64FileCodecID`, the fixed encoding identifier used for
the cloud provider config file. -/
def b64FileCodecID : String := "b64"

/-- The fixed path of the kubelet cloud provider config file
(part_000 line 235). -/
def cloudProviderConfigPath : String := "/var/lib/kubelet/cloudprovider.conf"

/-- The fixed kubelet configuration file path (part_000 line 144). -/
def kubeletConfigFilePath : String := "/var/lib/kubelet/config/kubelet"

/-- The fixed kubernetes general configuration file path
(part_000 line 151). -/
def generalConfigFilePath : String := "/etc/sysctl.d/99-k8s-general.conf"

/-- The `Ensurer` capability interface (part_000 lines 40-61), as a
record of provider-supplied functions.  In-place mutation through a
pointer becomes returning the new value in `Except`. -/
structure Ensurer where
  ensureKubeAPIServerService : Service → Except String Service
  ensureKubeAPIServerDeployment : Deployment → Except String Deployment
  ensureKubeControllerManagerDeployment : Deployment → Except String Deployment
  ensureKubeSchedulerDeployment : Deployment → Except String Deployment
  ensureETCDStatefulSet : StatefulSet → Cluster → Except String StatefulSet
  ensureKubeletServiceUnitOptions : List UnitOption → Except String (List UnitOption)
  ensureKubeletConfiguration : KubeletConfiguration → Except String KubeletConfiguration
  ensureKubernetesGeneralConfiguration : String → Except String String
  shouldProvisionKubeletCloudProviderConfig : Bool
  ensureKubeletCloudProviderConfig : String → String → Except String String

/-- The mutator's collaborators (part_000 lines 80-87): the ensurer, the
unit serializer, the kubelet config codec, the generic file content
inline codec, and the cluster lookup used for StatefulSets. -/
structure MutatorDeps where
  ensurer : Ensurer
  unitSerializerDeserialize : String → Except String (List UnitOption)
  unitSerializerSerialize : List UnitOption → Except String String
  kubeletConfigDecode : FileContentInline → Except String KubeletConfiguration
  kubeletConfigEncode : KubeletConfiguration → String → Except String FileContentInline
  fciDecode : FileContentInline → Except String String
  fciEncode : String → String → Except String FileContentInline
  getCluster : String → Except String Cluster

/-- Which ensurer method a `Mutate` call invoked, in order. -/
inductive EnsurerCall
  | kubeAPIServerService
  | kubeAPIServerDeployment
  | kubeControllerManagerDeployment
  | kubeSchedulerDeployment
  | etcdStatefulSet
  | kubeletServiceUnitOptions
  | kubeletConfiguration
  | kubernetesGeneralConfiguration
  | shouldProvisionCheck
  | kubeletCloudProviderConfig
deriving DecidableEq

/-- Modelled from the spec: `controlplane.UnitWithName` (helper of this
repository not under src/) locates the unit with the given name. -/
def UnitWithName (units : List OSCUnit) (name : String) : Option OSCUnit :=
  units.find? (fun u => u.name = name)

/-- Modelled from the spec: `controlplane.FileWithPath` (helper of this
repository not under src/) locates the file at the given path. -/
def FileWithPath (files : List File) (path : String) : Option File :=
  files.find? (fun f => f.path = path)

/-- Modelled from the spec: `controlplane.EnsureFileWithPath` (helper of
this repository not under src/) upserts a file entry by path:
insert-or-replace, replacing the first entry whose path matches, else
appending. -/
def EnsureFileWithPath : List File → File → List File
  | [], f => [f]
  | g :: gs, f => if g.path = f.path then f :: gs else g :: EnsureFileWithPath gs f

/-- In-place write through the pointer returned by `UnitWithName`:
replace the content of the first unit with the given name. -/
def setUnitContent : List OSCUnit → String → String → List OSCUnit
  | [], _, _ => []
  | u :: us, n, c => if u.name = n then { u with content := some c } :: us
      else u :: setUnitContent us n c

/-- In-place write through the pointer returned by `FileWithPath`:
replace the inline content of the first file at the given path. -/
def setFileInline : List File → String → FileContentInline → List File
  | [], _, _ => []
  | f :: fs, p, fci => if f.path = p then { f with contentInline := some fci } :: fs
      else f :: setFileInline fs p fci

/-- `ensureKubeletServiceUnitContent` (part_000 lines 167-186):
deserialize the unit content, run the ensurer hook, serialize back.
Error wrapping (`errors.Wrap`) is modelled as message concatenation. -/
def ensureKubeletServiceUnitContent (deps : MutatorDeps) (content : String) :
    Except String (String × List EnsurerCall) :=
  match deps.unitSerializerDeserialize content with
  | .error e => .error ("could not deserialize kubelet.service unit content: " ++ e)
  | .ok opts =>
    match deps.ensurer.ensureKubeletServiceUnitOptions opts with
    | .error e => .error e
    | .ok opts' =>
      match deps.unitSerializerSerialize opts' with
      | .error e => .error ("could not serialize kubelet.service unit options: " ++ e)
      | .ok s => .ok (s, [.kubeletServiceUnitOptions])

/-- `ensureKubeletConfigFileContent` (part_000 lines 188-209): decode the
kubelet configuration, run the ensurer hook, re-encode passing the
original declared encoding. -/
def ensureKubeletConfigFileContent (deps : MutatorDeps) (fci : FileContentInline) :
    Except String (FileContentInline × List EnsurerCall) :=
  match deps.kubeletConfigDecode fci with
  | .error e => .error ("could not decode kubelet configuration: " ++ e)
  | .ok kubeletConfig =>
    match deps.ensurer.ensureKubeletConfiguration kubeletConfig with
    | .error e => .error e
    | .ok kubeletConfig' =>
      match deps.kubeletConfigEncode kubeletConfig' fci.encoding with
      | .error e => .error ("could not encode kubelet configuration: " ++ e)
      | .ok newFCI => .ok (newFCI, [.kubeletConfiguration])

/-- `ensureKubernetesGeneralConfiguration` (part_000 lines 211-233):
decode the opaque text, run the ensurer hook, re-encode passing the
original declared encoding. -/
def ensureKubernetesGeneralConfigurationStep (deps : MutatorDeps) (fci : FileContentInline) :
    Except String (FileContentInline × List EnsurerCall) :=
  match deps.fciDecode fci with
  | .error e => .error ("could not decode kubernetes general configuration: " ++ e)
  | .ok data =>
    match deps.ensurer.ensureKubernetesGeneralConfiguration data with
    | .error e => .error e
    | .ok s =>
      match deps.fciEncode s fci.encoding with
      | .error e => .error ("could not encode kubernetes general configuration: " ++ e)
      | .ok newFCI => .ok (newFCI, [.kubernetesGeneralConfiguration])

/-- `ensureKubeletCloudProviderConfig` (part_000 lines 237-261): the hook
receives an empty string and the namespace, its output is encoded with
the fixed b64 codec identifier and upserted at the fixed path with
permissions 0644. -/
def ensureKubeletCloudProviderConfigStep (deps : MutatorDeps) (osc : OperatingSystemConfig) :
    Except String (OperatingSystemConfig × List EnsurerCall) :=
  match deps.ensurer.ensureKubeletCloudProviderConfig "" osc.namespaceName with
  | .error e => .error e
  | .ok s =>
    match deps.fciEncode s b64FileCodecID with
    | .error e => .error ("could not encode kubelet cloud provider config: " ++ e)
    | .ok fci =>
      let newFile : File := ⟨cloudProviderConfigPath, some 0o644, some fci⟩
      .ok ({ osc with files := EnsureFileWithPath osc.files newFile },
        [.kubeletCloudProviderConfig])

/-- Step 1 of `mutateOperatingSystemConfig` (part_000 lines 136-141):
mutate the kubelet.service unit if present with content. -/
def oscStepKubeletUnit (deps : MutatorDeps) (osc : OperatingSystemConfig) :
    Except String (OperatingSystemConfig × List EnsurerCall) :=
  match UnitWithName osc.units "kubelet.service" with
  | some u =>
    match u.content with
    | some content =>
      match ensureKubeletServiceUnitContent deps content with
      | .error e => .error e
      | .ok (content', calls) =>
        .ok ({ osc with units := setUnitContent osc.units "kubelet.service" content' }, calls)
    | none => .ok (osc, [])
  | none => .ok (osc, [])

/-- Step 2 of `mutateOperatingSystemConfig` (part_000 lines 143-148):
mutate the kubelet configuration file if present with inline content. -/
def oscStepKubeletConfigFile (deps : MutatorDeps) (osc : OperatingSystemConfig) :
    Except String (OperatingSystemConfig × List EnsurerCall) :=
  match FileWithPath osc.files kubeletConfigFilePath with
  | some f =>
    match f.contentInline with
    | some fci =>
      match ensureKubeletConfigFileContent deps fci with
      | .error e => .error e
      | .ok (fci', calls) =>
        .ok ({ osc with files := setFileInline osc.files kubeletConfigFilePath fci' }, calls)
    | none => .ok (osc, [])
  | none => .ok (osc, [])

/-- Step 3 of `mutateOperatingSystemConfig` (part_000 lines 150-155):
mutate the kubernetes general configuration file if present. -/
def oscStepGeneralConfigFile (deps : MutatorDeps) (osc : OperatingSystemConfig) :
    Except String (OperatingSystemConfig × List EnsurerCall) :=
  match FileWithPath osc.files generalConfigFilePath with
  | some f =>
    match f.contentInline with
    | some fci =>
      match ensureKubernetesGeneralConfigurationStep deps fci with
      | .error e => .error e
      | .ok (fci', calls) =>
        .ok ({ osc with files := setFileInline osc.files generalConfigFilePath fci' }, calls)
    | none => .ok (osc, [])
  | none => .ok (osc, [])

/-- Step 4 of `mutateOperatingSystemConfig` (part_000 lines 157-162):
query `ShouldProvisionKubeletCloudProviderConfig` and, if required,
ensure the cloud provider config file. -/
def oscStepCloudProviderConfig (deps : MutatorDeps) (osc : OperatingSystemConfig) :
    Except String (OperatingSystemConfig × List EnsurerCall) :=
  if deps.ensurer.shouldProvisionKubeletCloudProviderConfig then
    match ensureKubeletCloudProviderConfigStep deps osc with
    | .error e => .error e
    | .ok (osc', calls) => .ok (osc', .shouldProvisionCheck :: calls)
  else .ok (osc, [.shouldProvisionCheck])

/-- `mutateOperatingSystemConfig` (part_000 lines 135-165): the four
steps run in order, each aborting the dispatch on error while earlier
steps keep their in-place mutations. -/
def mutateOperatingSystemConfig (deps : MutatorDeps) (osc : OperatingSystemConfig) :
    Except String (OperatingSystemConfig × List EnsurerCall) :=
  match oscStepKubeletUnit deps osc with
  | .error e => .error e
  | .ok (osc1, c1) =>
    match oscStepKubeletConfigFile deps osc1 with
    | .error e => .error e
    | .ok (osc2, c2) =>
      match oscStepGeneralConfigFile deps osc2 with
      | .error e => .error e
      | .ok (osc3, c3) =>
        match oscStepCloudProviderConfig deps osc3 with
        | .error e => .error e
        | .ok (osc4, c4) => .ok (osc4, c1 ++ c2 ++ c3 ++ c4)

/-- The objects the mutator can be handed (its `runtime.Object`
argument): the concrete kinds the type switch matches, plus `other` for
every kind outside the dispatcher's known set. -/
inductive K8sObject
  | service (s : Service)
  | deployment (d : Deployment)
  | statefulSet (s : StatefulSet)
  | operatingSystemConfig (osc : OperatingSystemConfig)
  | other (kind : String)
deriving DecidableEq

/-- `Mutate` (part_000 lines 100-133): dispatch by concrete kind and
well-known name; unmatched combinations fall through to `return nil`
without touching the object or calling the ensurer.  The result carries
the possibly mutated object and the list of ensurer calls made. -/
def Mutate (deps : MutatorDeps) (obj : K8sObject) :
    Except String (K8sObject × List EnsurerCall) :=
  match obj with
  | .service s =>
    if s.name = kubeAPIServerDeploymentName then
      match deps.ensurer.ensureKubeAPIServerService s with
      | .error e => .error e
      | .ok s' => .ok (.service s', [.kubeAPIServerService])
    else .ok (obj, [])
  | .deployment d =>
    if d.name = kubeAPIServerDeploymentName then
      match deps.ensurer.ensureKubeAPIServerDeployment d with
      | .error e => .error e
      | .ok d' => .ok (.deployment d', [.kubeAPIServerDeployment])
    else if d.name = kubeControllerManagerDeploymentName then
      match deps.ensurer.ensureKubeControllerManagerDeployment d with
      | .error e => .error e
      | .ok d' => .ok (.deployment d', [.kubeControllerManagerDeployment])
    else if d.name = kubeSchedulerDeploymentName then
      match deps.ensurer.ensureKubeSchedulerDeployment d with
      | .error e => .error e
      | .ok d' => .ok (.deployment d', [.kubeSchedulerDeployment])
    else .ok (obj, [])
  | .statefulSet s =>
    if s.name = etcdMainStatefulSetName ∨ s.name = etcdEventsStatefulSetName then
      match deps.getCluster s.namespaceName with
      | .error e => .error ("could not get cluster for namespace: " ++ e)
      | .ok cluster =>
        match deps.ensurer.ensureETCDStatefulSet s cluster with
        | .error e => .error e
        | .ok s' => .ok (.statefulSet s', [.etcdStatefulSet])
    else .ok (obj, [])
  | .operatingSystemConfig osc =>
    if osc.purpose = oscPurposeReconcile then
      match mutateOperatingSystemConfig deps osc with
      | .error e => .error e
      | .ok (osc', calls) => .ok (.operatingSystemConfig osc', calls)
    else .ok (obj, [])
  | .other _ => .ok (obj, [])

/-- The entries of a file list at a given path, in order. -/
def filesAtPath : List File → String → List File
  | [], _ => []
  | f :: fs, p => if f.path = p then f :: filesAtPath fs p else filesAtPath fs p

/-- The OperatingSystemConfig produced by mutating `oscEmpty` with
`idDeps`. -/
def oscC7Result : OperatingSystemConfig :=
  ⟨"reconcile", "shoot--foo--bar", [],
    [⟨cloudProviderConfigPath, some 0o644, some ⟨"b64", "CONFIG"⟩⟩]⟩

/- ---------------------------------------------------------------------
   Concrete environments and collaborators used by witnesses.
--------------------------------------------------------------------- -/

/-- Every list call succeeds with an empty result. -/
def envAllEmpty : Nat → TickData := fun _ => ⟨.ok [], .ok [], .ok [], .ok [], .ok []⟩

/-- One machine never goes away: every tick stays pending. -/
def envOneMachine : Nat → TickData :=
  fun _ => ⟨.ok [⟨"m", []⟩], .ok [], .ok [], .ok [], .ok []⟩

/-- Tick data with an empty machines list but a non-empty machine sets
list: the machines count is first observed zero on a tick that does not
converge. -/
def c9Tick : TickData := ⟨.ok [], .ok [⟨"ms1"⟩], .ok [], .ok [], .ok []⟩

/-- Tick data whose machine deployments list reports a failed machine. -/
def envFailedMachine : Nat → TickData :=
  fun _ => ⟨.ok [], .ok [], .ok [⟨"md1", [⟨"mach1", "boom"⟩]⟩], .ok [], .ok []⟩

/-- Counters of a wait in progress: only machine deployments pending. -/
def cMDPending : Counts := ⟨0, 0, 5, 0, 0⟩

/-- Tick data whose machines list call fails. -/
def envListError : Nat → TickData :=
  fun _ => ⟨.error "machines list failed", .ok [], .ok [], .ok [], .ok []⟩

/-- A provider ensurer whose hooks change nothing, requires a cloud
provider config and writes "CONFIG" into it. -/
def idEnsurer : Ensurer where
  ensureKubeAPIServerService := fun s => .ok s
  ensureKubeAPIServerDeployment := fun d => .ok d
  ensureKubeControllerManagerDeployment := fun d => .ok d
  ensureKubeSchedulerDeployment := fun d => .ok d
  ensureETCDStatefulSet := fun s _ => .ok s
  ensureKubeletServiceUnitOptions := fun opts => .ok opts
  ensureKubeletConfiguration := fun cfg => .ok cfg
  ensureKubernetesGeneralConfiguration := fun s => .ok s
  shouldProvisionKubeletCloudProviderConfig := true
  ensureKubeletCloudProviderConfig := fun _ _ => .ok "CONFIG"

/-- Collaborators whose codecs round-trip: decoding exposes the stored
data, encoding stores it back under the requested encoding tag. -/
def idDeps : MutatorDeps where
  ensurer := idEnsurer
  unitSerializerDeserialize := fun s => .ok [⟨"Service", "ExecStart", s⟩]
  unitSerializerSerialize := fun opts => .ok (String.join (opts.map (fun o => o.value)))
  kubeletConfigDecode := fun fci => .ok ⟨fci.data⟩
  kubeletConfigEncode := fun v enc => .ok ⟨enc, v.data⟩
  fciDecode := fun fci => .ok fci.data
  fciEncode := fun s enc => .ok ⟨enc, s⟩
  getCluster := fun _ => .ok ⟨"cluster"⟩

/-- An OperatingSystemConfig of purpose "reconcile" with no units and no
files. -/
def oscEmpty : OperatingSystemConfig := ⟨"reconcile", "shoot--foo--bar", [], []⟩

/-- Concrete environment for the C1 witness: two machines, updating
machine A fails, machine B succeeds; all setup collaborators succeed. -/
def c1Env : DeleteEnv where
  delegateErr := none
  getMCMDeploymentErr := none
  scaleErr := none
  shootChartErr := none
  machines := [⟨"A", []⟩, ⟨"B", []⟩]
  listMachinesErr := none
  updateErr := fun m => if m.name = "A" then some "update of A rejected" else none
  listMachineDeploymentsErr := none
  cleanupMachineDeploymentsErr := none
  cleanupMachineClassesErr := none
  cleanupMachineClassSecretsErr := none
  waitTicks := fun _ => ⟨.ok [], .ok [], .ok [], .ok [], .ok []⟩
  waitFuel := 1
  shootClientsErr := none
  mcmShootChartDeleteErr := none
  mcmSeedChartDeleteErr := none

/- ---------------------------------------------------------------------
   Helper lemmas.
--------------------------------------------------------------------- -/

theorem getLabel_setLabel (ls : List (String × String)) (k v : String) :
    getLabel (setLabel ls k v) k = some v := by
  induction ls with
  | nil => simp [setLabel, getLabel]
  | cons p ls ih =>
    by_cases h : p.1 = k
    · simp [setLabel, getLabel, h]
    · simp [setLabel, getLabel, h, ih]

theorem markAll_labellingFailed (updateErr : Machine → Option String) (machines : List Machine)
    (errs : List String)
    (herrs : machines.filterMap (fun m => (markMachineForcefulDeletion updateErr m).error) = errs)
    (hne : errs ≠ []) :
    markAllMachinesForcefulDeletion none updateErr machines =
      ⟨machines.map (fun m =>
          let r := markMachineForcefulDeletion updateErr m
          if r.error = none then r.machine else m),
        some (.labellingFailed errs)⟩ := by
  subst herrs
  simp only [markAllMachinesForcefulDeletion]
  rw [if_neg hne]

/- ---------------------------------------------------------------------
   Claim C5.
--------------------------------------------------------------------- -/

/-- C5: marking a machine for forceful deletion is idempotent: a machine
already carrying the label force-deletion="True" gets no update call, is
left unchanged and produces no error; a machine without the label gets
the label set and exactly one update call. -/
theorem C5_markMachineForcefulDeletion_idempotent (updateErr : Machine → Option String)
    (m : Machine) :
    (getLabel m.labels forceDeletionLabelKey = some forceDeletionLabelValue →
      markMachineForcefulDeletion updateErr m = ⟨m, 0, none⟩) ∧
    (getLabel m.labels forceDeletionLabelKey ≠ some forceDeletionLabelValue →
      (markMachineForcefulDeletion updateErr m).updateCalls = 1 ∧
      getLabel (markMachineForcefulDeletion updateErr m).machine.labels forceDeletionLabelKey =
        some forceDeletionLabelValue) := by
  constructor
  · intro h
    simp [markMachineForcefulDeletion, h]
  · intro h
    simp [markMachineForcefulDeletion, h, getLabel_setLabel]

/-- C5 witness: an already-labelled machine is returned unchanged with no
update call and no error; an unlabelled one gets exactly one update. -/
theorem C5_witness :
    markMachineForcefulDeletion (fun _ => none) ⟨"m1", [("force-deletion", "True")]⟩ =
      ⟨⟨"m1", [("force-deletion", "True")]⟩, 0, none⟩ ∧
    (markMachineForcefulDeletion (fun _ => none) ⟨"m2", []⟩).updateCalls = 1 :=
  ⟨(C5_markMachineForcefulDeletion_idempotent (fun _ => none)
      ⟨"m1", [("force-deletion", "True")]⟩).1 (by decide),
    ((C5_markMachineForcefulDeletion_idempotent (fun _ => none) ⟨"m2", []⟩).2 (by decide)).1⟩

/- ---------------------------------------------------------------------
   Claim C1.
--------------------------------------------------------------------- -/

/-- C1: when the setup steps succeed and labelling fails for a non-empty
set of machines, `Delete` runs one labelling task per machine, returns
the single aggregate error carrying every collected failure, keeps the
labels of successfully labelled machines in the store (no rollback), and
never starts the cascade deletion steps (machine deployments, machine
classes, machine class secrets). -/
theorem C1_delete_aborts_on_partial_labelling_failure (env : DeleteEnv)
    (h1 : env.delegateErr = none) (h2 : env.getMCMDeploymentErr = none)
    (h3 : env.scaleErr = none) (h4 : env.shootChartErr = none)
    (h5 : env.listMachinesErr = none)
    (errs : List String)
    (herrs : env.machines.filterMap
      (fun m => (markMachineForcefulDeletion env.updateErr m).error) = errs)
    (hne : errs ≠ []) :
    (Delete env).error = some (.markFailed (.labellingFailed errs)) ∧
    (∀ m ∈ env.machines, ∀ e, (markMachineForcefulDeletion env.updateErr m).error = some e →
      e ∈ errs) ∧
    (∀ m ∈ env.machines, (markMachineForcefulDeletion env.updateErr m).error = none →
      (markMachineForcefulDeletion env.updateErr m).machine ∈ (Delete env).finalMachines) ∧
    (Delete env).finalMachines.length = env.machines.length ∧
    DeleteStage.cleanupMachineDeployments ∉ (Delete env).stages ∧
    DeleteStage.cleanupMachineClasses ∉ (Delete env).stages ∧
    DeleteStage.cleanupMachineClassSecrets ∉ (Delete env).stages := by
  have hmark := markAll_labellingFailed env.updateErr env.machines errs herrs hne
  have hD : Delete env = ⟨some (.markFailed (.labellingFailed errs)),
      [.instantiateDelegate, .getMCMDeployment, .scaleMCM, .applyMCMShootChart,
        .markMachinesForcefulDeletion],
      env.machines.map (fun m =>
        let r := markMachineForcefulDeletion env.updateErr m
        if r.error = none then r.machine else m)⟩ := by
    unfold Delete
    rw [h1, h2, h3, h4, h5, hmark]
  refine ⟨by rw [hD], ?_, ?_, ?_, ?_, ?_, ?_⟩
  · intro m hm e he
    rw [← herrs]
    exact List.mem_filterMap.mpr ⟨m, hm, he⟩
  · intro m hm hnone
    rw [hD]
    exact List.mem_map.mpr ⟨m, hm, by simp [hnone]⟩
  · rw [hD]
    exact List.length_map _ _
  · rw [hD]; simp
  · rw [hD]; simp
  · rw [hD]; simp

/-- C1 witness: in `c1Env`, Delete returns the aggregate labelling error
carrying A's failure, B keeps its label in the store, and no cascade
cleanup step is started. -/
theorem C1_witness :
    (Delete c1Env).error = some (.markFailed (.labellingFailed ["update of A rejected"])) ∧
    (Machine.mk "B" [("force-deletion", "True")]) ∈ (Delete c1Env).finalMachines ∧
    DeleteStage.cleanupMachineDeployments ∉ (Delete c1Env).stages := by
  have h := C1_delete_aborts_on_partial_labelling_failure c1Env rfl rfl rfl rfl rfl
    ["update of A rejected"] (by decide) (by decide)
  refine ⟨h.1, ?_, h.2.2.2.2.1⟩
  have hb := h.2.2.1 ⟨"B", []⟩ (by decide) (by decide)
  simpa [markMachineForcefulDeletion, forceDeletionLabelKey, forceDeletionLabelValue,
    getLabel, setLabel] using hb

/- ---------------------------------------------------------------------
   Wait-loop infrastructure lemmas.
--------------------------------------------------------------------- -/

theorem simpleStage_skip (k : ResourceKind) (get : Counts → Int) (set : Counts → Int → Counts)
    (obs : Except String Int) (acc : TickAcc) (h : get acc.counts = 0) :
    simpleStage k get set obs acc = .ok acc := by
  simp [simpleStage, h]

theorem simpleStage_ok (k : ResourceKind) (get : Counts → Int) (set : Counts → Int → Counts)
    (obs : Except String Int) (acc acc' : TickAcc)
    (h : simpleStage k get set obs acc = .ok acc') :
    (get acc.counts = 0 ∧ acc' = acc) ∨
    (get acc.counts ≠ 0 ∧ ∃ n, obs = .ok n ∧
      acc' = ⟨set acc.counts n, acc.queried ++ [k], acc.summary ++ [(k, n)]⟩) := by
  by_cases hg : get acc.counts = 0
  · left
    rw [simpleStage_skip k get set obs acc hg] at h
    exact ⟨hg, (Except.ok.inj h).symm⟩
  · right
    unfold simpleStage at h
    rw [if_pos hg] at h
    cases obs with
    | error s => simp at h
    | ok n => exact ⟨hg, n, rfl, (Except.ok.inj h).symm⟩

theorem simpleStage_error (k : ResourceKind) (get : Counts → Int) (set : Counts → Int → Counts)
    (obs : Except String Int) (acc : TickAcc) (q : List ResourceKind) (e : WaitError)
    (h : simpleStage k get set obs acc = .error (q, e)) :
    get acc.counts ≠ 0 ∧ q = acc.queried ++ [k] ∧ ∃ s, obs = .error s ∧ e = .listErr s := by
  by_cases hg : get acc.counts = 0
  · rw [simpleStage_skip k get set obs acc hg] at h
    simp at h
  · unfold simpleStage at h
    rw [if_pos hg] at h
    cases obs with
    | error s =>
      simp only [Except.error.injEq, Prod.mk.injEq] at h
      exact ⟨hg, h.1.symm, s, rfl, h.2.symm⟩
    | ok n => simp at h

/-- The common frame facts of a successful simple query block: other
counters untouched, summary only extended (by the block's own piece when
it ran), the block a no-op when its counter is zero, queried only
extended by the block's own kind. -/
theorem simpleStage_frame (k : ResourceKind) (get : Counts → Int) (set : Counts → Int → Counts)
    (obs : Except String Int) (acc acc' : TickAcc)
    (hget : ∀ c, get c = countOf c k)
    (hset_own : ∀ c n, countOf (set c n) k = n)
    (hset_other : ∀ c n k', k' ≠ k → countOf (set c n) k' = countOf c k')
    (h : simpleStage k get set obs acc = .ok acc') :
    (∀ k', k' ≠ k → countOf acc'.counts k' = countOf acc.counts k') ∧
    (∀ x, x ∈ acc.summary → x ∈ acc'.summary) ∧
    (∀ x, x ∈ acc'.summary → x ∈ acc.summary ∨ x = (k, countOf acc'.counts k)) ∧
    (countOf acc.counts k ≠ 0 → (k, countOf acc'.counts k) ∈ acc'.summary) ∧
    (countOf acc.counts k = 0 → acc' = acc) ∧
    (∀ k', k' ∈ acc'.queried → k' ∈ acc.queried ∨ k' = k) ∧
    (∀ k', k' ∈ acc.queried → k' ∈ acc'.queried) := by
  rcases simpleStage_ok k get set obs acc acc' h with ⟨hg, rfl⟩ | ⟨hg, n, hobs, rfl⟩
  · refine ⟨fun _ _ => rfl, fun _ hx => hx, fun _ hx => Or.inl hx, ?_, fun _ => rfl,
      fun _ hx => Or.inl hx, fun _ hx => hx⟩
    intro hne
    exact absurd (by rw [← hget]; exact hg) hne
  · refine ⟨fun k' hk' => hset_other _ _ _ hk', ?_, ?_, ?_, ?_, ?_, ?_⟩
    · intro x hx
      simp only [List.mem_append]
      exact Or.inl hx
    · intro x hx
      simp only [List.mem_append, List.mem_singleton] at hx
      rcases hx with hx | hx
      · exact Or.inl hx
      · right
        rw [hx]
        simp [hset_own]
    · intro _
      simp [hset_own]
    · intro hz
      exact absurd (by rw [hget] at hg; exact hg) (not_not_intro hz)
    · intro k' hk'
      simp only [List.mem_append, List.mem_singleton] at hk'
      exact hk'
    · intro k' hk'
      simp only [List.mem_append]
      exact Or.inl hk'

theorem machinesStage_frame (d : TickData) (acc acc' : TickAcc)
    (h : machinesStage d acc = .ok acc') :
    (∀ k', k' ≠ ResourceKind.machines → countOf acc'.counts k' = countOf acc.counts k') ∧
    (∀ x, x ∈ acc.summary → x ∈ acc'.summary) ∧
    (∀ x, x ∈ acc'.summary → x ∈ acc.summary ∨
      x = (ResourceKind.machines, countOf acc'.counts .machines)) ∧
    (countOf acc.counts .machines ≠ 0 →
      (ResourceKind.machines, countOf acc'.counts .machines) ∈ acc'.summary) ∧
    (countOf acc.counts .machines = 0 → acc' = acc) ∧
    (∀ k', k' ∈ acc'.queried → k' ∈ acc.queried ∨ k' = ResourceKind.machines) ∧
    (∀ k', k' ∈ acc.queried → k' ∈ acc'.queried) := by
  unfold machinesStage at h
  refine simpleStage_frame _ _ _ _ _ _ ?_ ?_ ?_ h
  · exact fun _ => rfl
  · exact fun _ _ => rfl
  · exact fun c n k' hk => by cases k' <;> first | exact absurd rfl hk | rfl

theorem machineSetsStage_frame (d : TickData) (acc acc' : TickAcc)
    (h : machineSetsStage d acc = .ok acc') :
    (∀ k', k' ≠ ResourceKind.machineSets → countOf acc'.counts k' = countOf acc.counts k') ∧
    (∀ x, x ∈ acc.summary → x ∈ acc'.summary) ∧
    (∀ x, x ∈ acc'.summary → x ∈ acc.summary ∨
      x = (ResourceKind.machineSets, countOf acc'.counts .machineSets)) ∧
    (countOf acc.counts .machineSets ≠ 0 →
      (ResourceKind.machineSets, countOf acc'.counts .machineSets) ∈ acc'.summary) ∧
    (countOf acc.counts .machineSets = 0 → acc' = acc) ∧
    (∀ k', k' ∈ acc'.queried → k' ∈ acc.queried ∨ k' = ResourceKind.machineSets) ∧
    (∀ k', k' ∈ acc.queried → k' ∈ acc'.queried) := by
  unfold machineSetsStage at h
  refine simpleStage_frame _ _ _ _ _ _ ?_ ?_ ?_ h
  · exact fun _ => rfl
  · exact fun _ _ => rfl
  · exact fun c n k' hk => by cases k' <;> first | exact absurd rfl hk | rfl

theorem machineClassesStage_frame (d : TickData) (acc acc' : TickAcc)
    (h : machineClassesStage d acc = .ok acc') :
    (∀ k', k' ≠ ResourceKind.machineClasses → countOf acc'.counts k' = countOf acc.counts k') ∧
    (∀ x, x ∈ acc.summary → x ∈ acc'.summary) ∧
    (∀ x, x ∈ acc'.summary → x ∈ acc.summary ∨
      x = (ResourceKind.machineClasses, countOf acc'.counts .machineClasses)) ∧
    (countOf acc.counts .machineClasses ≠ 0 →
      (ResourceKind.machineClasses, countOf acc'.counts .machineClasses) ∈ acc'.summary) ∧
    (countOf acc.counts .machineClasses = 0 → acc' = acc) ∧
    (∀ k', k' ∈ acc'.queried → k' ∈ acc.queried ∨ k' = ResourceKind.machineClasses) ∧
    (∀ k', k' ∈ acc.queried → k' ∈ acc'.queried) := by
  unfold machineClassesStage at h
  refine simpleStage_frame _ _ _ _ _ _ ?_ ?_ ?_ h
  · exact fun _ => rfl
  · exact fun _ _ => rfl
  · exact fun c n k' hk => by cases k' <;> first | exact absurd rfl hk | rfl

theorem machineClassSecretsStage_frame (d : TickData) (acc acc' : TickAcc)
    (h : machineClassSecretsStage d acc = .ok acc') :
    (∀ k', k' ≠ ResourceKind.machineClassSecrets →
      countOf acc'.counts k' = countOf acc.counts k') ∧
    (∀ x, x ∈ acc.summary → x ∈ acc'.summary) ∧
    (∀ x, x ∈ acc'.summary → x ∈ acc.summary ∨
      x = (ResourceKind.machineClassSecrets, countOf acc'.counts .machineClassSecrets)) ∧
    (countOf acc.counts .machineClassSecrets ≠ 0 →
      (ResourceKind.machineClassSecrets,
        countOf acc'.counts .machineClassSecrets) ∈ acc'.summary) ∧
    (countOf acc.counts .machineClassSecrets = 0 → acc' = acc) ∧
    (∀ k', k' ∈ acc'.queried → k' ∈ acc.queried ∨ k' = ResourceKind.machineClassSecrets) ∧
    (∀ k', k' ∈ acc.queried → k' ∈ acc'.queried) := by
  unfold machineClassSecretsStage at h
  refine simpleStage_frame _ _ _ _ _ _ ?_ ?_ ?_ h
  · exact fun _ => rfl
  · exact fun _ _ => rfl
  · exact fun c n k' hk => by cases k' <;> first | exact absurd rfl hk | rfl

theorem machineDeploymentsStage_ok_cases (d : TickData) (acc acc' : TickAcc)
    (h : machineDeploymentsStage d acc = .ok acc') :
    (acc.counts.countMachineDeployments = 0 ∧ acc' = acc) ∨
    (acc.counts.countMachineDeployments ≠ 0 ∧ ∃ mds, d.machineDeployments = .ok mds ∧
      firstFailedMachine mds = none ∧
      acc' = ⟨{ acc.counts with countMachineDeployments := (mds.length : Int) },
        acc.queried ++ [.machineDeployments],
        acc.summary ++ [(.machineDeployments, (mds.length : Int))]⟩) := by
  unfold machineDeploymentsStage at h
  split at h
  · next hg =>
    split at h
    · next s hmd => simp at h
    · next mds hmd =>
      split at h
      · next fm hff => simp at h
      · next hff =>
        exact Or.inr ⟨hg, mds, hmd, hff, (Except.ok.inj h).symm⟩
  · next hg =>
    exact Or.inl ⟨not_not.mp hg, (Except.ok.inj h).symm⟩

theorem machineDeploymentsStage_error_cases (d : TickData) (acc : TickAcc)
    (q : List ResourceKind) (e : WaitError)
    (h : machineDeploymentsStage d acc = .error (q, e)) :
    acc.counts.countMachineDeployments ≠ 0 ∧ q = acc.queried ++ [.machineDeployments] ∧
    ((∃ s, d.machineDeployments = .error s ∧ e = .listErr s) ∨
      (∃ mds fm, d.machineDeployments = .ok mds ∧ firstFailedMachine mds = some fm ∧
        e = .failedMachine fm.name fm.lastOperationDescription)) := by
  unfold machineDeploymentsStage at h
  split at h
  · next hg =>
    split at h
    · next s hmd =>
      simp only [Except.error.injEq, Prod.mk.injEq] at h
      exact ⟨hg, h.1.symm, Or.inl ⟨s, hmd, h.2.symm⟩⟩
    · next mds hmd =>
      split at h
      · next fm hff =>
        simp only [Except.error.injEq, Prod.mk.injEq] at h
        exact ⟨hg, h.1.symm, Or.inr ⟨mds, fm, hmd, hff, h.2.symm⟩⟩
      · next hff => simp at h
  · next hg => simp at h

theorem machineDeploymentsStage_frame (d : TickData) (acc acc' : TickAcc)
    (h : machineDeploymentsStage d acc = .ok acc') :
    (∀ k', k' ≠ ResourceKind.machineDeployments →
      countOf acc'.counts k' = countOf acc.counts k') ∧
    (∀ x, x ∈ acc.summary → x ∈ acc'.summary) ∧
    (∀ x, x ∈ acc'.summary → x ∈ acc.summary ∨
      x = (ResourceKind.machineDeployments, countOf acc'.counts .machineDeployments)) ∧
    (countOf acc.counts .machineDeployments ≠ 0 →
      (ResourceKind.machineDeployments,
        countOf acc'.counts .machineDeployments) ∈ acc'.summary) ∧
    (countOf acc.counts .machineDeployments = 0 → acc' = acc) ∧
    (∀ k', k' ∈ acc'.queried → k' ∈ acc.queried ∨ k' = ResourceKind.machineDeployments) ∧
    (∀ k', k' ∈ acc.queried → k' ∈ acc'.queried) := by
  rcases machineDeploymentsStage_ok_cases d acc acc' h with ⟨hg, rfl⟩ | ⟨hg, mds, _, _, rfl⟩
  · exact ⟨fun _ _ => rfl, fun _ hx => hx, fun _ hx => Or.inl hx,
      fun hne => absurd hg hne, fun _ => rfl, fun _ hx => Or.inl hx, fun _ hx => hx⟩
  · refine ⟨fun k' hk' => by cases k' <;> first | exact absurd rfl hk' | rfl,
      ?_, ?_, ?_, ?_, ?_, ?_⟩
    · intro x hx
      simp only [List.mem_append]
      exact Or.inl hx
    · intro x hx
      simp only [List.mem_append, List.mem_singleton] at hx
      rcases hx with hx | hx
      · exact Or.inl hx
      · right
        rw [hx]
        rfl
    · intro _
      simp [countOf]
    · intro hz
      exact absurd hz hg
    · intro k' hk'
      simp only [List.mem_append, List.mem_singleton] at hk'
      exact hk'
    · intro k' hk'
      simp only [List.mem_append]
      exact Or.inl hk'

theorem tickQueries_ok_cases (c : Counts) (d : TickData) (acc : TickAcc)
    (h : tickQueries c d = .ok acc) :
    ∃ a1 a2 a3 a4, machinesStage d ⟨c, [], []⟩ = .ok a1 ∧ machineSetsStage d a1 = .ok a2 ∧
      machineDeploymentsStage d a2 = .ok a3 ∧ machineClassesStage d a3 = .ok a4 ∧
      machineClassSecretsStage d a4 = .ok acc := by
  unfold tickQueries at h
  cases h1 : machinesStage d ⟨c, [], []⟩ with
  | error p => rw [h1] at h; simp [Except.bind] at h
  | ok a1 =>
    rw [h1] at h
    simp only [Except.bind] at h
    cases h2 : machineSetsStage d a1 with
    | error p => rw [h2] at h; simp [Except.bind] at h
    | ok a2 =>
      rw [h2] at h
      simp only [Except.bind] at h
      cases h3 : machineDeploymentsStage d a2 with
      | error p => rw [h3] at h; simp [Except.bind] at h
      | ok a3 =>
        rw [h3] at h
        simp only [Except.bind] at h
        cases h4 : machineClassesStage d a3 with
        | error p => rw [h4] at h; simp [Except.bind] at h
        | ok a4 =>
          rw [h4] at h
          simp only [Except.bind] at h
          exact ⟨a1, a2, a3, a4, rfl, h2, h3, h4, h⟩

theorem tickQueries_error_cases (c : Counts) (d : TickData) (q : List ResourceKind)
    (e : WaitError) (h : tickQueries c d = .error (q, e)) :
    machinesStage d ⟨c, [], []⟩ = .error (q, e) ∨
    (∃ a1, machinesStage d ⟨c, [], []⟩ = .ok a1 ∧
      (machineSetsStage d a1 = .error (q, e) ∨
        (∃ a2, machineSetsStage d a1 = .ok a2 ∧
          (machineDeploymentsStage d a2 = .error (q, e) ∨
            (∃ a3, machineDeploymentsStage d a2 = .ok a3 ∧
              (machineClassesStage d a3 = .error (q, e) ∨
                (∃ a4, machineClassesStage d a3 = .ok a4 ∧
                  machineClassSecretsStage d a4 = .error (q, e)))))))) := by
  unfold tickQueries at h
  cases h1 : machinesStage d ⟨c, [], []⟩ with
  | error p =>
    rw [h1] at h
    simp only [Except.bind] at h
    exact Or.inl h
  | ok a1 =>
    rw [h1] at h
    simp only [Except.bind] at h
    right
    refine ⟨a1, rfl, ?_⟩
    cases h2 : machineSetsStage d a1 with
    | error p =>
      rw [h2] at h
      simp only [Except.bind] at h
      exact Or.inl h
    | ok a2 =>
      rw [h2] at h
      simp only [Except.bind] at h
      right
      refine ⟨a2, rfl, ?_⟩
      cases h3 : machineDeploymentsStage d a2 with
      | error p =>
        rw [h3] at h
        simp only [Except.bind] at h
        exact Or.inl h
      | ok a3 =>
        rw [h3] at h
        simp only [Except.bind] at h
        right
        refine ⟨a3, rfl, ?_⟩
        cases h4 : machineClassesStage d a3 with
        | error p =>
          rw [h4] at h
          simp only [Except.bind] at h
          exact Or.inl h
        | ok a4 =>
          rw [h4] at h
          simp only [Except.bind] at h
          right
          exact ⟨a4, rfl, h⟩

theorem runWaitFrom_succ (env : Nat → TickData) (t fuel : Nat) (c : Counts) :
    runWaitFrom env t (fuel + 1) c =
      match (tickStep c (env t)).outcome with
      | .finished => .success
      | .failed e => .condErr e
      | .pending c' => runWaitFrom env (t + 1) fuel c' := rfl

theorem runWaitFrom_finished (env : Nat → TickData) (t fuel : Nat) (c : Counts)
    (h : (tickStep c (env t)).outcome = .finished) :
    runWaitFrom env t (fuel + 1) c = .success := by
  rw [runWaitFrom_succ, h]

theorem runWaitFrom_failed (env : Nat → TickData) (t fuel : Nat) (c : Counts) (e : WaitError)
    (h : (tickStep c (env t)).outcome = .failed e) :
    runWaitFrom env t (fuel + 1) c = .condErr e := by
  rw [runWaitFrom_succ, h]

theorem runWaitFrom_pending (env : Nat → TickData) (t fuel : Nat) (c c' : Counts)
    (h : (tickStep c (env t)).outcome = .pending c') :
    runWaitFrom env t (fuel + 1) c = runWaitFrom env (t + 1) fuel c' := by
  rw [runWaitFrom_succ, h]

theorem runTraceFrom_succ (env : Nat → TickData) (t fuel : Nat) (c : Counts) :
    runTraceFrom env t (fuel + 1) c =
      match (tickStep c (env t)).outcome with
      | .pending c' => tickStep c (env t) :: runTraceFrom env (t + 1) fuel c'
      | _ => [tickStep c (env t)] := rfl

theorem tickStep_of_error (c : Counts) (d : TickData) (q : List ResourceKind) (e : WaitError)
    (h : tickQueries c d = .error (q, e)) :
    tickStep c d = ⟨q, [], .failed e⟩ := by
  unfold tickStep
  rw [h]

theorem tickStep_of_ok (c : Counts) (d : TickData) (acc : TickAcc)
    (h : tickQueries c d = .ok acc) :
    (tickStep c d).queried = acc.queried ∧ (tickStep c d).summary = acc.summary ∧
    ((tickStep c d).outcome = .finished ∨ (tickStep c d).outcome = .pending acc.counts) ∧
    ((tickStep c d).outcome = .finished ↔
      (acc.counts.countMachines = 0 ∧ acc.counts.countMachineSets = 0 ∧
        acc.counts.countMachineDeployments = 0 ∧ acc.counts.countMachineClasses = 0 ∧
        acc.counts.countMachineClassSecrets = 0)) := by
  unfold tickStep
  rw [h]
  dsimp only
  by_cases hcond : acc.counts.countMachines ≠ 0 ∨ acc.counts.countMachineSets ≠ 0 ∨
      acc.counts.countMachineDeployments ≠ 0 ∨ acc.counts.countMachineClasses ≠ 0 ∨
      acc.counts.countMachineClassSecrets ≠ 0
  · rw [if_pos hcond]
    refine ⟨rfl, rfl, Or.inr rfl, ?_, ?_⟩
    · intro habs
      simp at habs
    · intro hall
      exfalso
      rcases hcond with hne | hne | hne | hne | hne
      · exact hne hall.1
      · exact hne hall.2.1
      · exact hne hall.2.2.1
      · exact hne hall.2.2.2.1
      · exact hne hall.2.2.2.2
  · rw [if_neg hcond]
    push_neg at hcond
    exact ⟨rfl, rfl, Or.inl rfl, fun _ => hcond, fun _ => rfl⟩

/-- Preservation of a zero counter and of non-queriedness through one
query block, given the block's frame and error facts. -/
theorem stageZero (st : TickAcc → Except (List ResourceKind × WaitError) TickAcc)
    (sk k : ResourceKind) (acc : TickAcc)
    (hok : ∀ acc', st acc = .ok acc' →
      (∀ k', k' ≠ sk → countOf acc'.counts k' = countOf acc.counts k') ∧
      (countOf acc.counts sk = 0 → acc' = acc) ∧
      (∀ k', k' ∈ acc'.queried → k' ∈ acc.queried ∨ k' = sk))
    (herr : ∀ q e, st acc = .error (q, e) →
      countOf acc.counts sk ≠ 0 ∧ q = acc.queried ++ [sk])
    (hk : countOf acc.counts k = 0) (hq : k ∉ acc.queried) :
    (∀ acc', st acc = .ok acc' → countOf acc'.counts k = 0 ∧ k ∉ acc'.queried) ∧
    (∀ q e, st acc = .error (q, e) → k ∉ q) := by
  constructor
  · intro acc' hst
    obtain ⟨hother, hskip, hqr⟩ := hok acc' hst
    by_cases hks : k = sk
    · subst hks
      rw [hskip hk]
      exact ⟨hk, hq⟩
    · refine ⟨(hother k hks).trans hk, ?_⟩
      intro hmem
      rcases hqr k hmem with hmem' | rfl
      · exact hq hmem'
      · exact hks rfl
  · intro q e hst
    obtain ⟨hne, rfl⟩ := herr q e hst
    intro hmem
    rcases List.mem_append.mp hmem with hmem' | hmem'
    · exact hq hmem'
    · have hks : k = sk := List.mem_singleton.mp hmem'
      subst hks
      exact hne hk


theorem tickQueries_zero (c : Counts) (d : TickData) (k : ResourceKind)
    (hk : countOf c k = 0) :
    (∀ acc, tickQueries c d = .ok acc → countOf acc.counts k = 0 ∧ k ∉ acc.queried) ∧
    (∀ q e, tickQueries c d = .error (q, e) → k ∉ q) := by
  have hs1 : ∀ (acc : TickAcc), countOf acc.counts k = 0 → k ∉ acc.queried →
      (∀ acc', machinesStage d acc = .ok acc' → countOf acc'.counts k = 0 ∧ k ∉ acc'.queried) ∧
      (∀ q e, machinesStage d acc = .error (q, e) → k ∉ q) := by
    intro acc hk' hq'
    refine stageZero (machinesStage d) .machines k acc ?_ ?_ hk' hq'
    · intro acc' hz
      have f := machinesStage_frame d acc acc' hz
      exact ⟨f.1, f.2.2.2.2.1, f.2.2.2.2.2.1⟩
    · intro q e hz
      unfold machinesStage at hz
      have hse := simpleStage_error _ _ _ _ _ _ _ hz
      exact ⟨hse.1, hse.2.1⟩
  have hs2 : ∀ (acc : TickAcc), countOf acc.counts k = 0 → k ∉ acc.queried →
      (∀ acc', machineSetsStage d acc = .ok acc' →
        countOf acc'.counts k = 0 ∧ k ∉ acc'.queried) ∧
      (∀ q e, machineSetsStage d acc = .error (q, e) → k ∉ q) := by
    intro acc hk' hq'
    refine stageZero (machineSetsStage d) .machineSets k acc ?_ ?_ hk' hq'
    · intro acc' hz
      have f := machineSetsStage_frame d acc acc' hz
      exact ⟨f.1, f.2.2.2.2.1, f.2.2.2.2.2.1⟩
    · intro q e hz
      unfold machineSetsStage at hz
      have hse := simpleStage_error _ _ _ _ _ _ _ hz
      exact ⟨hse.1, hse.2.1⟩
  have hs3 : ∀ (acc : TickAcc), countOf acc.counts k = 0 → k ∉ acc.queried →
      (∀ acc', machineDeploymentsStage d acc = .ok acc' →
        countOf acc'.counts k = 0 ∧ k ∉ acc'.queried) ∧
      (∀ q e, machineDeploymentsStage d acc = .error (q, e) → k ∉ q) := by
    intro acc hk' hq'
    refine stageZero (machineDeploymentsStage d) .machineDeployments k acc ?_ ?_ hk' hq'
    · intro acc' hz
      have f := machineDeploymentsStage_frame d acc acc' hz
      exact ⟨f.1, f.2.2.2.2.1, f.2.2.2.2.2.1⟩
    · intro q e hz
      have hse := machineDeploymentsStage_error_cases d acc q e hz
      exact ⟨hse.1, hse.2.1⟩
  have hs4 : ∀ (acc : TickAcc), countOf acc.counts k = 0 → k ∉ acc.queried →
      (∀ acc', machineClassesStage d acc = .ok acc' →
        countOf acc'.counts k = 0 ∧ k ∉ acc'.queried) ∧
      (∀ q e, machineClassesStage d acc = .error (q, e) → k ∉ q) := by
    intro acc hk' hq'
    refine stageZero (machineClassesStage d) .machineClasses k acc ?_ ?_ hk' hq'
    · intro acc' hz
      have f := machineClassesStage_frame d acc acc' hz
      exact ⟨f.1, f.2.2.2.2.1, f.2.2.2.2.2.1⟩
    · intro q e hz
      unfold machineClassesStage at hz
      have hse := simpleStage_error _ _ _ _ _ _ _ hz
      exact ⟨hse.1, hse.2.1⟩
  have hs5 : ∀ (acc : TickAcc), countOf acc.counts k = 0 → k ∉ acc.queried →
      (∀ acc', machineClassSecretsStage d acc = .ok acc' →
        countOf acc'.counts k = 0 ∧ k ∉ acc'.queried) ∧
      (∀ q e, machineClassSecretsStage d acc = .error (q, e) → k ∉ q) := by
    intro acc hk' hq'
    refine stageZero (machineClassSecretsStage d) .machineClassSecrets k acc ?_ ?_ hk' hq'
    · intro acc' hz
      have f := machineClassSecretsStage_frame d acc acc' hz
      exact ⟨f.1, f.2.2.2.2.1, f.2.2.2.2.2.1⟩
    · intro q e hz
      unfold machineClassSecretsStage at hz
      have hse := simpleStage_error _ _ _ _ _ _ _ hz
      exact ⟨hse.1, hse.2.1⟩
  have hq0 : k ∉ (⟨c, [], []⟩ : TickAcc).queried := by simp
  constructor
  · intro acc h
    obtain ⟨a1, a2, a3, a4, h1, h2, h3, h4, h5⟩ := tickQueries_ok_cases c d acc h
    have z1 := (hs1 ⟨c, [], []⟩ hk hq0).1 a1 h1
    have z2 := (hs2 a1 z1.1 z1.2).1 a2 h2
    have z3 := (hs3 a2 z2.1 z2.2).1 a3 h3
    have z4 := (hs4 a3 z3.1 z3.2).1 a4 h4
    exact (hs5 a4 z4.1 z4.2).1 acc h5
  · intro q e h
    rcases tickQueries_error_cases c d q e h with
      h1 | ⟨a1, h1, h2 | ⟨a2, h2, h3 | ⟨a3, h3, h4 | ⟨a4, h4, h5⟩⟩⟩⟩
    · exact (hs1 ⟨c, [], []⟩ hk hq0).2 q e h1
    · have z1 := (hs1 ⟨c, [], []⟩ hk hq0).1 a1 h1
      exact (hs2 a1 z1.1 z1.2).2 q e h2
    · have z1 := (hs1 ⟨c, [], []⟩ hk hq0).1 a1 h1
      have z2 := (hs2 a1 z1.1 z1.2).1 a2 h2
      exact (hs3 a2 z2.1 z2.2).2 q e h3
    · have z1 := (hs1 ⟨c, [], []⟩ hk hq0).1 a1 h1
      have z2 := (hs2 a1 z1.1 z1.2).1 a2 h2
      have z3 := (hs3 a2 z2.1 z2.2).1 a3 h3
      exact (hs4 a3 z3.1 z3.2).2 q e h4
    · have z1 := (hs1 ⟨c, [], []⟩ hk hq0).1 a1 h1
      have z2 := (hs2 a1 z1.1 z1.2).1 a2 h2
      have z3 := (hs3 a2 z2.1 z2.2).1 a3 h3
      have z4 := (hs4 a3 z3.1 z3.2).1 a4 h4
      exact (hs5 a4 z4.1 z4.2).2 q e h5

/- ---------------------------------------------------------------------
   Claim C4.
--------------------------------------------------------------------- -/

/-- C4: within one invocation of the convergence wait, once a resource
type's stored counter is zero it is never queried again: a tick started
with a zero counter for kind `k` does not query `k` and every pending
successor state keeps that counter zero; consequently no tick of the
remaining run queries `k` again. -/
theorem C4_zero_count_never_requeried (env : Nat → TickData) (k : ResourceKind) :
    (∀ (c : Counts) (d : TickData), countOf c k = 0 →
      k ∉ (tickStep c d).queried ∧
      ∀ c', (tickStep c d).outcome = .pending c' → countOf c' k = 0) ∧
    (∀ (fuel t : Nat) (c : Counts), countOf c k = 0 →
      ∀ r ∈ runTraceFrom env t fuel c, k ∉ r.queried) := by
  have hstep : ∀ (c : Counts) (d : TickData), countOf c k = 0 →
      k ∉ (tickStep c d).queried ∧
      ∀ c', (tickStep c d).outcome = .pending c' → countOf c' k = 0 := by
    intro c d hk
    have hz := tickQueries_zero c d k hk
    cases ht : tickQueries c d with
    | error p =>
      obtain ⟨q, e⟩ := p
      rw [tickStep_of_error c d q e ht]
      refine ⟨hz.2 q e ht, ?_⟩
      intro c' habs
      simp at habs
    | ok acc =>
      have hzo := hz.1 acc ht
      obtain ⟨hque, _, hout, _⟩ := tickStep_of_ok c d acc ht
      refine ⟨hque ▸ hzo.2, ?_⟩
      intro c' hpend
      rcases hout with hfin | hpend'
      · rw [hfin] at hpend
        simp at hpend
      · rw [hpend'] at hpend
        have hcc : acc.counts = c' := by injection hpend
        rw [← hcc]
        exact hzo.1
  refine ⟨hstep, ?_⟩
  intro fuel
  induction fuel with
  | zero =>
    intro t c _ r hr
    simp [runTraceFrom] at hr
  | succ n ih =>
    intro t c hk r hr
    cases ho : (tickStep c (env t)).outcome with
    | pending c' =>
      rw [runTraceFrom_succ, ho] at hr
      rcases List.mem_cons.mp hr with rfl | hr'
      · exact (hstep c (env t) hk).1
      · exact ih (t + 1) c' ((hstep c (env t) hk).2 c' ho) r hr'
    | finished =>
      rw [runTraceFrom_succ, ho] at hr
      have hre : r = tickStep c (env t) := List.mem_singleton.mp hr
      rw [hre]
      exact (hstep c (env t) hk).1
    | failed e =>
      rw [runTraceFrom_succ, ho] at hr
      have hre : r = tickStep c (env t) := List.mem_singleton.mp hr
      rw [hre]
      exact (hstep c (env t) hk).1

/-- C4 witness: with the machines counter already zero, the machines
type is not queried on the next tick. -/
theorem C4_witness :
    ResourceKind.machines ∉ (tickStep ⟨0, 1, 1, 1, 1⟩ (envOneMachine 0)).queried :=
  ((C4_zero_count_never_requeried envOneMachine .machines).1 ⟨0, 1, 1, 1, 1⟩
    (envOneMachine 0) (by decide)).1

/- ---------------------------------------------------------------------
   Claim C3.
--------------------------------------------------------------------- -/

/-- C3: a tick that completes its queries converges exactly when all
five counters are simultaneously zero; a converged tick makes the wait
return success at once; if every tick within the deadline stays pending
the wait returns the timeout result, and the timeout result is distinct
from every condition error (in particular from the fatal failed-machine
error) and from success. -/
theorem C3_wait_success_and_timeout (env : Nat → TickData) :
    (∀ (c : Counts) (d : TickData) (acc : TickAcc), tickQueries c d = .ok acc →
      ((tickStep c d).outcome = .finished ↔
        (acc.counts.countMachines = 0 ∧ acc.counts.countMachineSets = 0 ∧
          acc.counts.countMachineDeployments = 0 ∧ acc.counts.countMachineClasses = 0 ∧
          acc.counts.countMachineClassSecrets = 0))) ∧
    (∀ (t fuel : Nat) (c : Counts), (tickStep c (env t)).outcome = .finished →
      runWaitFrom env t (fuel + 1) c = .success) ∧
    (∀ (fuel t : Nat) (c : Counts),
      (∀ r ∈ runTraceFrom env t fuel c, ∃ c', r.outcome = .pending c') →
      runWaitFrom env t fuel c = .timeout) ∧
    (∀ e, WaitResult.timeout ≠ WaitResult.condErr e) ∧
    WaitResult.timeout ≠ WaitResult.success := by
  refine ⟨?_, ?_, ?_, ?_, ?_⟩
  · intro c d acc h
    exact (tickStep_of_ok c d acc h).2.2.2
  · intro t fuel c h
    exact runWaitFrom_finished env t fuel c h
  · intro fuel
    induction fuel with
    | zero =>
      intro t c _
      rfl
    | succ n ih =>
      intro t c h
      cases ho : (tickStep c (env t)).outcome with
      | finished =>
        exfalso
        have hr : tickStep c (env t) ∈ runTraceFrom env t (n + 1) c := by
          rw [runTraceFrom_succ, ho]
          exact List.mem_singleton.mpr rfl
        obtain ⟨c', hc'⟩ := h _ hr
        rw [ho] at hc'
        simp at hc'
      | failed e =>
        exfalso
        have hr : tickStep c (env t) ∈ runTraceFrom env t (n + 1) c := by
          rw [runTraceFrom_succ, ho]
          exact List.mem_singleton.mpr rfl
        obtain ⟨c', hc'⟩ := h _ hr
        rw [ho] at hc'
        simp at hc'
      | pending c' =>
        rw [runWaitFrom_pending env t n c c' ho]
        apply ih
        intro r hr
        apply h
        rw [runTraceFrom_succ, ho]
        exact List.mem_cons_of_mem _ hr
  · intro e habs
    cases habs
  · intro habs
    cases habs

/-- C3 witness: with all lists empty the wait succeeds on the first
tick; with one machine never going away every tick is pending and the
deadline yields the timeout result. -/
theorem C3_witness :
    runWaitFrom envAllEmpty 0 1 initialCounts = .success ∧
    runWaitFrom envOneMachine 0 1 initialCounts = .timeout := by
  constructor
  · exact (C3_wait_success_and_timeout envAllEmpty).2.1 0 0 initialCounts (by decide)
  · refine (C3_wait_success_and_timeout envOneMachine).2.2.1 1 0 initialCounts ?_
    intro r hr
    have htr : runTraceFrom envOneMachine 0 1 initialCounts =
        [⟨[.machines, .machineSets, .machineDeployments, .machineClasses, .machineClassSecrets],
          [(.machines, 1), (.machineSets, 0), (.machineDeployments, 0), (.machineClasses, 0),
            (.machineClassSecrets, 0)], .pending ⟨1, 0, 0, 0, 0⟩⟩] := by decide
    rw [htr] at hr
    have hre := List.mem_singleton.mp hr
    rw [hre]
    exact ⟨⟨1, 0, 0, 0, 0⟩, rfl⟩

/- ---------------------------------------------------------------------
   Claim C2.
--------------------------------------------------------------------- -/

theorem firstFailedMachine_of_exists (mds : List MachineDeployment)
    (h : ∃ md ∈ mds, md.failedMachines ≠ []) :
    ∃ fm, firstFailedMachine mds = some fm ∧ ∃ md ∈ mds, fm ∈ md.failedMachines := by
  induction mds with
  | nil => simp at h
  | cons md rest ih =>
    cases hf : md.failedMachines with
    | nil =>
      obtain ⟨md', hmd', hne⟩ := h
      rcases List.mem_cons.mp hmd' with rfl | hmem
      · exact absurd hf hne
      · obtain ⟨fm, hfm, md'', hmd'', hin⟩ := ih ⟨md', hmem, hne⟩
        refine ⟨fm, ?_, md'', List.mem_cons_of_mem _ hmd'', hin⟩
        unfold firstFailedMachine
        rw [hf]
        exact hfm
    | cons fm fms =>
      refine ⟨fm, ?_, md, List.mem_cons_self .., by rw [hf]; exact List.mem_cons_self ..⟩
      unfold firstFailedMachine
      rw [hf]

/-- C2: on a tick where the machine deployments are still queried (their
stored counter is non-zero), the machines and machine sets blocks
succeed, the machine deployments list call succeeds, and some listed
MachineDeployment carries a non-empty FailedMachines entry, the tick
fails with the fatal error built from a failed machine's name and
last-operation description, and the wait terminates with exactly that
error on this same tick, for every remaining deadline and regardless of
the other counters. -/
theorem C2_wait_fails_fast_on_failed_machine (env : Nat → TickData) (t fuel : Nat)
    (c : Counts) (a2 : TickAcc) (mds : List MachineDeployment)
    (hMD : c.countMachineDeployments ≠ 0)
    (hpre : ((machinesStage (env t) ⟨c, [], []⟩).bind (machineSetsStage (env t))) = .ok a2)
    (hlist : (env t).machineDeployments = .ok mds)
    (hfail : ∃ md ∈ mds, md.failedMachines ≠ []) :
    ∃ fm, (∃ md ∈ mds, fm ∈ md.failedMachines) ∧
      (tickStep c (env t)).outcome =
        .failed (.failedMachine fm.name fm.lastOperationDescription) ∧
      runWaitFrom env t (fuel + 1) c =
        .condErr (.failedMachine fm.name fm.lastOperationDescription) := by
  obtain ⟨fm, hff, hmem⟩ := firstFailedMachine_of_exists mds hfail
  cases h1 : machinesStage (env t) ⟨c, [], []⟩ with
  | error p =>
    rw [h1] at hpre
    simp [Except.bind] at hpre
  | ok a1 =>
    rw [h1] at hpre
    simp only [Except.bind] at hpre
    have hc1 : countOf a1.counts .machineDeployments =
        countOf (⟨c, [], []⟩ : TickAcc).counts .machineDeployments :=
      (machinesStage_frame _ _ _ h1).1 _ (by decide)
    have hc2 : countOf a2.counts .machineDeployments = countOf a1.counts .machineDeployments :=
      (machineSetsStage_frame _ _ _ hpre).1 _ (by decide)
    have hMD2 : a2.counts.countMachineDeployments ≠ 0 := by
      have h2' := hc2.trans hc1
      simp only [countOf] at h2'
      rw [h2']
      exact hMD
    have hmd_err : machineDeploymentsStage (env t) a2 =
        .error (a2.queried ++ [.machineDeployments],
          .failedMachine fm.name fm.lastOperationDescription) := by
      unfold machineDeploymentsStage
      rw [if_pos hMD2, hlist]
      dsimp only
      rw [hff]
    have htq : tickQueries c (env t) =
        .error (a2.queried ++ [.machineDeployments],
          .failedMachine fm.name fm.lastOperationDescription) := by
      unfold tickQueries
      rw [h1]
      simp only [Except.bind]
      rw [hpre]
      simp only [Except.bind]
      rw [hmd_err]
    refine ⟨fm, hmem, ?_, ?_⟩
    · rw [tickStep_of_error _ _ _ _ htq]
    · exact runWaitFrom_failed env t fuel c _ (by rw [tickStep_of_error _ _ _ _ htq])

/-- C2 witness: with only the machine deployments counter non-zero and a
deployment reporting failed machine "mach1", the wait terminates this
tick with the fatal error carrying its name and description. -/
theorem C2_witness :
    ∃ fm, (∃ md ∈ [MachineDeployment.mk "md1" [⟨"mach1", "boom"⟩]], fm ∈ md.failedMachines) ∧
      (tickStep cMDPending (envFailedMachine 0)).outcome =
        .failed (.failedMachine fm.name fm.lastOperationDescription) ∧
      runWaitFrom envFailedMachine 0 (4 + 1) cMDPending =
        .condErr (.failedMachine fm.name fm.lastOperationDescription) :=
  C2_wait_fails_fast_on_failed_machine envFailedMachine 0 4 cMDPending
    ⟨cMDPending, [], []⟩ [⟨"md1", [⟨"mach1", "boom"⟩]⟩] (by decide) rfl rfl
    ⟨⟨"md1", [⟨"mach1", "boom"⟩]⟩, by decide⟩

/- ---------------------------------------------------------------------
   Claim C10.
--------------------------------------------------------------------- -/

theorem exceptBind_ok {ε α β : Type} (x : Except ε α) (f : α → Except ε β) (b : β)
    (h : x.bind f = .ok b) : ∃ a, x = .ok a ∧ f a = .ok b := by
  cases x with
  | error e => simp [Except.bind] at h
  | ok a => exact ⟨a, rfl, by simpa [Except.bind] using h⟩

/-- C10: a failed list call aborts the wait immediately with that error:
for each of the five resource types, if its query block is reached on a
tick (its stored counter is non-zero and every earlier block succeeded)
and the list call returns an error, the tick fails with that error and
the wait returns it at once instead of polling again. -/
theorem C10_list_error_aborts_wait (env : Nat → TickData) (t fuel : Nat) (c : Counts) :
    (∀ s, c.countMachines ≠ 0 → (env t).machines = .error s →
      (tickStep c (env t)).outcome = .failed (.listErr s) ∧
      runWaitFrom env t (fuel + 1) c = .condErr (.listErr s)) ∧
    (∀ s a1, machinesStage (env t) ⟨c, [], []⟩ = .ok a1 → c.countMachineSets ≠ 0 →
      (env t).machineSets = .error s →
      (tickStep c (env t)).outcome = .failed (.listErr s) ∧
      runWaitFrom env t (fuel + 1) c = .condErr (.listErr s)) ∧
    (∀ s a2, ((machinesStage (env t) ⟨c, [], []⟩).bind (machineSetsStage (env t))) = .ok a2 →
      c.countMachineDeployments ≠ 0 → (env t).machineDeployments = .error s →
      (tickStep c (env t)).outcome = .failed (.listErr s) ∧
      runWaitFrom env t (fuel + 1) c = .condErr (.listErr s)) ∧
    (∀ s a3, (((machinesStage (env t) ⟨c, [], []⟩).bind (machineSetsStage (env t))).bind
        (machineDeploymentsStage (env t))) = .ok a3 →
      c.countMachineClasses ≠ 0 → (env t).machineClasses = .error s →
      (tickStep c (env t)).outcome = .failed (.listErr s) ∧
      runWaitFrom env t (fuel + 1) c = .condErr (.listErr s)) ∧
    (∀ s a4, ((((machinesStage (env t) ⟨c, [], []⟩).bind (machineSetsStage (env t))).bind
        (machineDeploymentsStage (env t))).bind (machineClassesStage (env t))) = .ok a4 →
      c.countMachineClassSecrets ≠ 0 → (env t).machineClassSecrets = .error s →
      (tickStep c (env t)).outcome = .failed (.listErr s) ∧
      runWaitFrom env t (fuel + 1) c = .condErr (.listErr s)) := by
  refine ⟨?_, ?_, ?_, ?_, ?_⟩
  · intro s hg hs
    have herr : machinesStage (env t) ⟨c, [], []⟩ = .error ([.machines], .listErr s) := by
      unfold machinesStage simpleStage
      rw [hs]
      simp [Except.map, hg]
    have htq : tickQueries c (env t) = .error ([.machines], .listErr s) := by
      unfold tickQueries
      rw [herr]
      simp only [Except.bind]
    exact ⟨by rw [tickStep_of_error _ _ _ _ htq],
      runWaitFrom_failed env t fuel c _ (by rw [tickStep_of_error _ _ _ _ htq])⟩
  · intro s a1 h1 hg hs
    have hg1 : a1.counts.countMachineSets ≠ 0 := by
      have hp := (machinesStage_frame _ _ _ h1).1 .machineSets (by decide)
      simp only [countOf] at hp
      rw [hp]
      exact hg
    have herr : machineSetsStage (env t) a1 =
        .error (a1.queried ++ [.machineSets], .listErr s) := by
      unfold machineSetsStage simpleStage
      rw [hs]
      simp [Except.map, hg1]
    have htq : tickQueries c (env t) =
        .error (a1.queried ++ [.machineSets], .listErr s) := by
      unfold tickQueries
      rw [h1]
      simp only [Except.bind]
      rw [herr]
    exact ⟨by rw [tickStep_of_error _ _ _ _ htq],
      runWaitFrom_failed env t fuel c _ (by rw [tickStep_of_error _ _ _ _ htq])⟩
  · intro s a2 hpre hg hs
    obtain ⟨a1, h1, h2⟩ := exceptBind_ok _ _ _ hpre
    have hg2 : a2.counts.countMachineDeployments ≠ 0 := by
      have hp1 := (machinesStage_frame _ _ _ h1).1 .machineDeployments (by decide)
      have hp2 := (machineSetsStage_frame _ _ _ h2).1 .machineDeployments (by decide)
      simp only [countOf] at hp1 hp2
      rw [hp2, hp1]
      exact hg
    have herr : machineDeploymentsStage (env t) a2 =
        .error (a2.queried ++ [.machineDeployments], .listErr s) := by
      unfold machineDeploymentsStage
      rw [if_pos hg2, hs]
    have htq : tickQueries c (env t) =
        .error (a2.queried ++ [.machineDeployments], .listErr s) := by
      unfold tickQueries
      rw [h1]
      simp only [Except.bind]
      rw [h2]
      simp only [Except.bind]
      rw [herr]
    exact ⟨by rw [tickStep_of_error _ _ _ _ htq],
      runWaitFrom_failed env t fuel c _ (by rw [tickStep_of_error _ _ _ _ htq])⟩
  · intro s a3 hpre hg hs
    obtain ⟨a2, hpre2, h3⟩ := exceptBind_ok _ _ _ hpre
    obtain ⟨a1, h1, h2⟩ := exceptBind_ok _ _ _ hpre2
    have hg3 : a3.counts.countMachineClasses ≠ 0 := by
      have hp1 := (machinesStage_frame _ _ _ h1).1 .machineClasses (by decide)
      have hp2 := (machineSetsStage_frame _ _ _ h2).1 .machineClasses (by decide)
      have hp3 := (machineDeploymentsStage_frame _ _ _ h3).1 .machineClasses (by decide)
      simp only [countOf] at hp1 hp2 hp3
      rw [hp3, hp2, hp1]
      exact hg
    have herr : machineClassesStage (env t) a3 =
        .error (a3.queried ++ [.machineClasses], .listErr s) := by
      unfold machineClassesStage simpleStage
      rw [hs]
      simp [Except.map, hg3]
    have htq : tickQueries c (env t) =
        .error (a3.queried ++ [.machineClasses], .listErr s) := by
      unfold tickQueries
      rw [h1]
      simp only [Except.bind]
      rw [h2]
      simp only [Except.bind]
      rw [h3]
      simp only [Except.bind]
      rw [herr]
    exact ⟨by rw [tickStep_of_error _ _ _ _ htq],
      runWaitFrom_failed env t fuel c _ (by rw [tickStep_of_error _ _ _ _ htq])⟩
  · intro s a4 hpre hg hs
    obtain ⟨a3, hpre3, h4⟩ := exceptBind_ok _ _ _ hpre
    obtain ⟨a2, hpre2, h3⟩ := exceptBind_ok _ _ _ hpre3
    obtain ⟨a1, h1, h2⟩ := exceptBind_ok _ _ _ hpre2
    have hg4 : a4.counts.countMachineClassSecrets ≠ 0 := by
      have hp1 := (machinesStage_frame _ _ _ h1).1 .machineClassSecrets (by decide)
      have hp2 := (machineSetsStage_frame _ _ _ h2).1 .machineClassSecrets (by decide)
      have hp3 := (machineDeploymentsStage_frame _ _ _ h3).1 .machineClassSecrets (by decide)
      have hp4 := (machineClassesStage_frame _ _ _ h4).1 .machineClassSecrets (by decide)
      simp only [countOf] at hp1 hp2 hp3 hp4
      rw [hp4, hp3, hp2, hp1]
      exact hg
    have herr : machineClassSecretsStage (env t) a4 =
        .error (a4.queried ++ [.machineClassSecrets], .listErr s) := by
      unfold machineClassSecretsStage simpleStage
      rw [hs]
      simp [Except.map, hg4]
    have htq : tickQueries c (env t) =
        .error (a4.queried ++ [.machineClassSecrets], .listErr s) := by
      unfold tickQueries
      rw [h1]
      simp only [Except.bind]
      rw [h2]
      simp only [Except.bind]
      rw [h3]
      simp only [Except.bind]
      rw [h4]
      simp only [Except.bind]
      rw [herr]
    exact ⟨by rw [tickStep_of_error _ _ _ _ htq],
      runWaitFrom_failed env t fuel c _ (by rw [tickStep_of_error _ _ _ _ htq])⟩

/-- C10 witness: a failing machines list call on the first tick makes
the wait return that list error at once. -/
theorem C10_witness :
    runWaitFrom envListError 0 (9 + 1) initialCounts =
      .condErr (.listErr "machines list failed") :=
  ((C10_list_error_aborts_wait envListError 0 9 initialCounts).1
    "machines list failed" (by decide) rfl).2

/- ---------------------------------------------------------------------
   Claim C9.
--------------------------------------------------------------------- -/

theorem stageSummaryZero (st : TickAcc → Except (List ResourceKind × WaitError) TickAcc)
    (sk k : ResourceKind) (acc : TickAcc)
    (hok : ∀ acc', st acc = .ok acc' →
      (∀ k', k' ≠ sk → countOf acc'.counts k' = countOf acc.counts k') ∧
      (countOf acc.counts sk = 0 → acc' = acc) ∧
      (∀ x, x ∈ acc'.summary → x ∈ acc.summary ∨ x = (sk, countOf acc'.counts sk)))
    (hk : countOf acc.counts k = 0) (hs : ∀ n, (k, n) ∉ acc.summary) :
    ∀ acc', st acc = .ok acc' → countOf acc'.counts k = 0 ∧ ∀ n, (k, n) ∉ acc'.summary := by
  intro acc' hst
  obtain ⟨hother, hskip, hsum⟩ := hok acc' hst
  by_cases hks : k = sk
  · subst hks
    rw [hskip hk]
    exact ⟨hk, hs⟩
  · refine ⟨(hother k hks).trans hk, ?_⟩
    intro n hmem
    rcases hsum (k, n) hmem with hmem' | heq
    · exact hs n hmem'
    · have hkk : k = sk := congrArg Prod.fst heq
      exact hks hkk

theorem stageSummaryKeep (st : TickAcc → Except (List ResourceKind × WaitError) TickAcc)
    (sk k : ResourceKind) (acc : TickAcc) (n : Int)
    (hok : ∀ acc', st acc = .ok acc' →
      (∀ k', k' ≠ sk → countOf acc'.counts k' = countOf acc.counts k') ∧
      (∀ x, x ∈ acc.summary → x ∈ acc'.summary))
    (hks : k ≠ sk) (hc : countOf acc.counts k = n) (hm : (k, n) ∈ acc.summary) :
    ∀ acc', st acc = .ok acc' → countOf acc'.counts k = n ∧ (k, n) ∈ acc'.summary := by
  intro acc' hst
  obtain ⟨hother, hmono⟩ := hok acc' hst
  exact ⟨(hother k hks).trans hc, hmono _ hm⟩

/-- C9 (amended): on a tick whose query blocks all succeed, the progress
summary contains a piece for exactly the resource types whose stored
counter was non-zero when the tick began (the types queried this tick),
each carrying its newly observed count: a type whose counter reached
zero on an earlier tick does not appear, while a type first observed
zero on this very tick still appears, with count 0. -/
theorem C9_summary_names_queried_types (c : Counts) (d : TickData) (acc : TickAcc)
    (h : tickQueries c d = .ok acc) (k : ResourceKind) :
    (countOf c k = 0 → ∀ n, (k, n) ∉ acc.summary) ∧
    (countOf c k ≠ 0 → (k, countOf acc.counts k) ∈ acc.summary) := by
  obtain ⟨a1, a2, a3, a4, h1, h2, h3, h4, h5⟩ := tickQueries_ok_cases c d acc h
  have hok1 : ∀ (a a' : TickAcc), machinesStage d a = .ok a' →
      (∀ k', k' ≠ ResourceKind.machines → countOf a'.counts k' = countOf a.counts k') ∧
      (countOf a.counts .machines = 0 → a' = a) ∧
      (∀ x, x ∈ a'.summary → x ∈ a.summary ∨ x = (.machines, countOf a'.counts .machines)) :=
    fun a a' hz =>
      ⟨(machinesStage_frame d a a' hz).1, (machinesStage_frame d a a' hz).2.2.2.2.1,
        (machinesStage_frame d a a' hz).2.2.1⟩
  have hok2 : ∀ (a a' : TickAcc), machineSetsStage d a = .ok a' →
      (∀ k', k' ≠ ResourceKind.machineSets → countOf a'.counts k' = countOf a.counts k') ∧
      (countOf a.counts .machineSets = 0 → a' = a) ∧
      (∀ x, x ∈ a'.summary → x ∈ a.summary ∨
        x = (.machineSets, countOf a'.counts .machineSets)) :=
    fun a a' hz =>
      ⟨(machineSetsStage_frame d a a' hz).1, (machineSetsStage_frame d a a' hz).2.2.2.2.1,
        (machineSetsStage_frame d a a' hz).2.2.1⟩
  have hok3 : ∀ (a a' : TickAcc), machineDeploymentsStage d a = .ok a' →
      (∀ k', k' ≠ ResourceKind.machineDeployments →
        countOf a'.counts k' = countOf a.counts k') ∧
      (countOf a.counts .machineDeployments = 0 → a' = a) ∧
      (∀ x, x ∈ a'.summary → x ∈ a.summary ∨
        x = (.machineDeployments, countOf a'.counts .machineDeployments)) :=
    fun a a' hz =>
      ⟨(machineDeploymentsStage_frame d a a' hz).1,
        (machineDeploymentsStage_frame d a a' hz).2.2.2.2.1,
        (machineDeploymentsStage_frame d a a' hz).2.2.1⟩
  have hok4 : ∀ (a a' : TickAcc), machineClassesStage d a = .ok a' →
      (∀ k', k' ≠ ResourceKind.machineClasses → countOf a'.counts k' = countOf a.counts k') ∧
      (countOf a.counts .machineClasses = 0 → a' = a) ∧
      (∀ x, x ∈ a'.summary → x ∈ a.summary ∨
        x = (.machineClasses, countOf a'.counts .machineClasses)) :=
    fun a a' hz =>
      ⟨(machineClassesStage_frame d a a' hz).1, (machineClassesStage_frame d a a' hz).2.2.2.2.1,
        (machineClassesStage_frame d a a' hz).2.2.1⟩
  have hok5 : ∀ (a a' : TickAcc), machineClassSecretsStage d a = .ok a' →
      (∀ k', k' ≠ ResourceKind.machineClassSecrets →
        countOf a'.counts k' = countOf a.counts k') ∧
      (countOf a.counts .machineClassSecrets = 0 → a' = a) ∧
      (∀ x, x ∈ a'.summary → x ∈ a.summary ∨
        x = (.machineClassSecrets, countOf a'.counts .machineClassSecrets)) :=
    fun a a' hz =>
      ⟨(machineClassSecretsStage_frame d a a' hz).1,
        (machineClassSecretsStage_frame d a a' hz).2.2.2.2.1,
        (machineClassSecretsStage_frame d a a' hz).2.2.1⟩
  constructor
  · intro hk
    have z1 := stageSummaryZero (machinesStage d) .machines k ⟨c, [], []⟩
      (hok1 ⟨c, [], []⟩) hk (by simp) a1 h1
    have z2 := stageSummaryZero (machineSetsStage d) .machineSets k a1
      (hok2 a1) z1.1 z1.2 a2 h2
    have z3 := stageSummaryZero (machineDeploymentsStage d) .machineDeployments k a2
      (hok3 a2) z2.1 z2.2 a3 h3
    have z4 := stageSummaryZero (machineClassesStage d) .machineClasses k a3
      (hok4 a3) z3.1 z3.2 a4 h4
    exact (stageSummaryZero (machineClassSecretsStage d) .machineClassSecrets k a4
      (hok5 a4) z4.1 z4.2 acc h5).2
  · intro hk
    cases k with
    | machines =>
      have i1 := (machinesStage_frame d ⟨c, [], []⟩ a1 h1).2.2.2.1 hk
      have k2 := stageSummaryKeep (machineSetsStage d) .machineSets .machines a1
        (countOf a1.counts .machines)
        (fun a' hz => ⟨(machineSetsStage_frame d a1 a' hz).1,
          (machineSetsStage_frame d a1 a' hz).2.1⟩) (by decide) rfl i1 a2 h2
      have k3 := stageSummaryKeep (machineDeploymentsStage d) .machineDeployments .machines a2
        (countOf a1.counts .machines)
        (fun a' hz => ⟨(machineDeploymentsStage_frame d a2 a' hz).1,
          (machineDeploymentsStage_frame d a2 a' hz).2.1⟩) (by decide) k2.1 k2.2 a3 h3
      have k4 := stageSummaryKeep (machineClassesStage d) .machineClasses .machines a3
        (countOf a1.counts .machines)
        (fun a' hz => ⟨(machineClassesStage_frame d a3 a' hz).1,
          (machineClassesStage_frame d a3 a' hz).2.1⟩) (by decide) k3.1 k3.2 a4 h4
      have k5 := stageSummaryKeep (machineClassSecretsStage d) .machineClassSecrets .machines a4
        (countOf a1.counts .machines)
        (fun a' hz => ⟨(machineClassSecretsStage_frame d a4 a' hz).1,
          (machineClassSecretsStage_frame d a4 a' hz).2.1⟩) (by decide) k4.1 k4.2 acc h5
      rw [k5.1]
      exact k5.2
    | machineSets =>
      have p1 : countOf a1.counts .machineSets ≠ 0 := by
        rw [(machinesStage_frame d ⟨c, [], []⟩ a1 h1).1 .machineSets (by decide)]
        exact hk
      have i2 := (machineSetsStage_frame d a1 a2 h2).2.2.2.1 p1
      have k3 := stageSummaryKeep (machineDeploymentsStage d) .machineDeployments .machineSets a2
        (countOf a2.counts .machineSets)
        (fun a' hz => ⟨(machineDeploymentsStage_frame d a2 a' hz).1,
          (machineDeploymentsStage_frame d a2 a' hz).2.1⟩) (by decide) rfl i2 a3 h3
      have k4 := stageSummaryKeep (machineClassesStage d) .machineClasses .machineSets a3
        (countOf a2.counts .machineSets)
        (fun a' hz => ⟨(machineClassesStage_frame d a3 a' hz).1,
          (machineClassesStage_frame d a3 a' hz).2.1⟩) (by decide) k3.1 k3.2 a4 h4
      have k5 := stageSummaryKeep (machineClassSecretsStage d) .machineClassSecrets
        .machineSets a4 (countOf a2.counts .machineSets)
        (fun a' hz => ⟨(machineClassSecretsStage_frame d a4 a' hz).1,
          (machineClassSecretsStage_frame d a4 a' hz).2.1⟩) (by decide) k4.1 k4.2 acc h5
      rw [k5.1]
      exact k5.2
    | machineDeployments =>
      have p1 : countOf a2.counts .machineDeployments ≠ 0 := by
        rw [(machineSetsStage_frame d a1 a2 h2).1 .machineDeployments (by decide),
          (machinesStage_frame d ⟨c, [], []⟩ a1 h1).1 .machineDeployments (by decide)]
        exact hk
      have i3 := (machineDeploymentsStage_frame d a2 a3 h3).2.2.2.1 p1
      have k4 := stageSummaryKeep (machineClassesStage d) .machineClasses
        .machineDeployments a3 (countOf a3.counts .machineDeployments)
        (fun a' hz => ⟨(machineClassesStage_frame d a3 a' hz).1,
          (machineClassesStage_frame d a3 a' hz).2.1⟩) (by decide) rfl i3 a4 h4
      have k5 := stageSummaryKeep (machineClassSecretsStage d) .machineClassSecrets
        .machineDeployments a4 (countOf a3.counts .machineDeployments)
        (fun a' hz => ⟨(machineClassSecretsStage_frame d a4 a' hz).1,
          (machineClassSecretsStage_frame d a4 a' hz).2.1⟩) (by decide) k4.1 k4.2 acc h5
      rw [k5.1]
      exact k5.2
    | machineClasses =>
      have p1 : countOf a3.counts .machineClasses ≠ 0 := by
        rw [(machineDeploymentsStage_frame d a2 a3 h3).1 .machineClasses (by decide),
          (machineSetsStage_frame d a1 a2 h2).1 .machineClasses (by decide),
          (machinesStage_frame d ⟨c, [], []⟩ a1 h1).1 .machineClasses (by decide)]
        exact hk
      have i4 := (machineClassesStage_frame d a3 a4 h4).2.2.2.1 p1
      have k5 := stageSummaryKeep (machineClassSecretsStage d) .machineClassSecrets
        .machineClasses a4 (countOf a4.counts .machineClasses)
        (fun a' hz => ⟨(machineClassSecretsStage_frame d a4 a' hz).1,
          (machineClassSecretsStage_frame d a4 a' hz).2.1⟩) (by decide) rfl i4 acc h5
      rw [k5.1]
      exact k5.2
    | machineClassSecrets =>
      have p1 : countOf a4.counts .machineClassSecrets ≠ 0 := by
        rw [(machineClassesStage_frame d a3 a4 h4).1 .machineClassSecrets (by decide),
          (machineDeploymentsStage_frame d a2 a3 h3).1 .machineClassSecrets (by decide),
          (machineSetsStage_frame d a1 a2 h2).1 .machineClassSecrets (by decide),
          (machinesStage_frame d ⟨c, [], []⟩ a1 h1).1 .machineClassSecrets (by decide)]
        exact hk
      exact (machineClassSecretsStage_frame d a4 acc h5).2.2.2.1 p1

/-- C9 counterexample: on the first tick over `c9Tick` the machines
count is observed to be 0, the tick does not converge (the machine sets
count is 1), and the emitted summary still names the machines type,
with count 0 — refuting the claim that a type observed zero on that
tick does not appear in the summary. -/
theorem C9_counterexample :
    (tickStep initialCounts c9Tick).outcome = .pending ⟨0, 1, 0, 0, 0⟩ ∧
    (ResourceKind.machines, (0 : Int)) ∈ (tickStep initialCounts c9Tick).summary := by
  constructor
  · rfl
  · decide

/-- C9 witness for the amended statement: on that same tick the machine
sets type (whose stored counter was non-zero) appears in the summary
with its newly observed count 1. -/
theorem C9_witness :
    (ResourceKind.machineSets, (1 : Int)) ∈
      (⟨⟨0, 1, 0, 0, 0⟩,
        [.machines, .machineSets, .machineDeployments, .machineClasses, .machineClassSecrets],
        [(.machines, 0), (.machineSets, 1), (.machineDeployments, 0), (.machineClasses, 0),
          (.machineClassSecrets, 0)]⟩ : TickAcc).summary :=
  (C9_summary_names_queried_types initialCounts c9Tick _ rfl .machineSets).2 (by decide)

/- ---------------------------------------------------------------------
   Claim C6.
--------------------------------------------------------------------- -/

/-- C6: objects whose concrete kind is outside the dispatcher's known
set, workload objects whose (kind, name) pair does not match a
well-known name, and OperatingSystemConfigs whose declared purpose is
not "reconcile", are left unchanged by `Mutate`, with no ensurer call
and no error. -/
theorem C6_mutate_noop_on_unmatched (deps : MutatorDeps) :
    (∀ s : Service, s.name ≠ kubeAPIServerDeploymentName →
      Mutate deps (.service s) = .ok (.service s, [])) ∧
    (∀ d : Deployment, d.name ≠ kubeAPIServerDeploymentName →
      d.name ≠ kubeControllerManagerDeploymentName → d.name ≠ kubeSchedulerDeploymentName →
      Mutate deps (.deployment d) = .ok (.deployment d, [])) ∧
    (∀ s : StatefulSet, s.name ≠ etcdMainStatefulSetName →
      s.name ≠ etcdEventsStatefulSetName →
      Mutate deps (.statefulSet s) = .ok (.statefulSet s, [])) ∧
    (∀ osc : OperatingSystemConfig, osc.purpose ≠ oscPurposeReconcile →
      Mutate deps (.operatingSystemConfig osc) = .ok (.operatingSystemConfig osc, [])) ∧
    (∀ kind : String, Mutate deps (.other kind) = .ok (.other kind, [])) := by
  refine ⟨?_, ?_, ?_, ?_, ?_⟩
  · intro s hs
    simp [Mutate, hs]
  · intro d h1 h2 h3
    simp [Mutate, h1, h2, h3]
  · intro s h1 h2
    have hor : ¬(s.name = etcdMainStatefulSetName ∨ s.name = etcdEventsStatefulSetName) := by
      intro habs
      rcases habs with h | h
      · exact h1 h
      · exact h2 h
    simp [Mutate, hor]
  · intro osc hp
    simp [Mutate, hp]
  · intro kind
    simp [Mutate]

/-- C6 witness: a service with an unknown name, an OperatingSystemConfig
of purpose "provision" and an object of an unknown kind are all returned
unchanged with no ensurer call. -/
theorem C6_witness :
    Mutate idDeps (.service ⟨"foo", "x"⟩) = .ok (.service ⟨"foo", "x"⟩, []) ∧
    Mutate idDeps (.operatingSystemConfig ⟨"provision", "ns", [], []⟩) =
      .ok (.operatingSystemConfig ⟨"provision", "ns", [], []⟩, []) ∧
    Mutate idDeps (.other "ConfigMap") = .ok (.other "ConfigMap", []) :=
  ⟨(C6_mutate_noop_on_unmatched idDeps).1 ⟨"foo", "x"⟩ (by decide),
    (C6_mutate_noop_on_unmatched idDeps).2.2.2.1 ⟨"provision", "ns", [], []⟩ (by decide),
    (C6_mutate_noop_on_unmatched idDeps).2.2.2.2 "ConfigMap"⟩

/- ---------------------------------------------------------------------
   Claim C8.
--------------------------------------------------------------------- -/

/-- C8: the kubelet-configuration and sysctl-configuration mutation
steps re-encode the inline content under the original payload's declared
encoding (given an encoding-preserving codec), and a payload the hook
does not modify is reproduced byte-for-byte (given a codec that
round-trips at that payload). -/
theorem C8_encoding_preserved_and_roundtrip (deps : MutatorDeps) :
    (∀ fci fci' calls,
      (∀ v enc out, deps.kubeletConfigEncode v enc = .ok out → out.encoding = enc) →
      ensureKubeletConfigFileContent deps fci = .ok (fci', calls) →
      fci'.encoding = fci.encoding) ∧
    (∀ fci v, deps.kubeletConfigDecode fci = .ok v →
      deps.ensurer.ensureKubeletConfiguration v = .ok v →
      deps.kubeletConfigEncode v fci.encoding = .ok fci →
      ensureKubeletConfigFileContent deps fci = .ok (fci, [.kubeletConfiguration])) ∧
    (∀ fci fci' calls,
      (∀ s enc out, deps.fciEncode s enc = .ok out → out.encoding = enc) →
      ensureKubernetesGeneralConfigurationStep deps fci = .ok (fci', calls) →
      fci'.encoding = fci.encoding) ∧
    (∀ fci s, deps.fciDecode fci = .ok s →
      deps.ensurer.ensureKubernetesGeneralConfiguration s = .ok s →
      deps.fciEncode s fci.encoding = .ok fci →
      ensureKubernetesGeneralConfigurationStep deps fci =
        .ok (fci, [.kubernetesGeneralConfiguration])) := by
  refine ⟨?_, ?_, ?_, ?_⟩
  · intro fci fci' calls henc h
    unfold ensureKubeletConfigFileContent at h
    split at h
    · next e hd => simp at h
    · next v hd =>
      split at h
      · next e he => simp at h
      · next v' he =>
        split at h
        · next e hc => simp at h
        · next out hc =>
          simp only [Except.ok.injEq, Prod.mk.injEq] at h
          rw [← h.1]
          exact henc v' fci.encoding out hc
  · intro fci v hd he hc
    unfold ensureKubeletConfigFileContent
    rw [hd]
    dsimp only
    rw [he]
    dsimp only
    rw [hc]
  · intro fci fci' calls henc h
    unfold ensureKubernetesGeneralConfigurationStep at h
    split at h
    · next e hd => simp at h
    · next s hd =>
      split at h
      · next e he => simp at h
      · next s' he =>
        split at h
        · next e hc => simp at h
        · next out hc =>
          simp only [Except.ok.injEq, Prod.mk.injEq] at h
          rw [← h.1]
          exact henc s' fci.encoding out hc
  · intro fci s hd he hc
    unfold ensureKubernetesGeneralConfigurationStep
    rw [hd]
    dsimp only
    rw [he]
    dsimp only
    rw [hc]

/-- C8 witness: with round-tripping codecs and no-op hooks, both steps
reproduce their payload byte-for-byte under its original encoding. -/
theorem C8_witness :
    ensureKubeletConfigFileContent idDeps ⟨"b64", "cfgdata"⟩ =
      .ok (⟨"b64", "cfgdata"⟩, [.kubeletConfiguration]) ∧
    ensureKubernetesGeneralConfigurationStep idDeps ⟨"", "vm.max-map-count = 135217728"⟩ =
      .ok (⟨"", "vm.max-map-count = 135217728"⟩, [.kubernetesGeneralConfiguration]) :=
  ⟨(C8_encoding_preserved_and_roundtrip idDeps).2.1 ⟨"b64", "cfgdata"⟩ ⟨"cfgdata"⟩ rfl rfl rfl,
    (C8_encoding_preserved_and_roundtrip idDeps).2.2.2 ⟨"", "vm.max-map-count = 135217728"⟩
      "vm.max-map-count = 135217728" rfl rfl rfl⟩

/- ---------------------------------------------------------------------
   Claim C7.
--------------------------------------------------------------------- -/

theorem setFileInline_filesAtPath_ne (fs : List File) (p : String) (fci : FileContentInline)
    (q : String) (hqp : q ≠ p) :
    filesAtPath (setFileInline fs p fci) q = filesAtPath fs q := by
  induction fs with
  | nil => rfl
  | cons f fs ih =>
    by_cases hf : f.path = p
    · have hfq : ¬ f.path = q := by
        rw [hf]
        exact fun hpq => hqp hpq.symm
      simp only [setFileInline, if_pos hf, filesAtPath]
      dsimp only
      rw [if_neg hfq, if_neg hfq]
    · simp only [setFileInline, if_neg hf, filesAtPath]
      by_cases hfq : f.path = q
      · rw [if_pos hfq, if_pos hfq, ih]
      · rw [if_neg hfq, if_neg hfq, ih]

theorem EnsureFileWithPath_atPath (fs : List File) (f : File)
    (hone : (filesAtPath fs f.path).length ≤ 1) :
    filesAtPath (EnsureFileWithPath fs f) f.path = [f] := by
  induction fs with
  | nil => simp [EnsureFileWithPath, filesAtPath]
  | cons g gs ih =>
    by_cases hg : g.path = f.path
    · simp only [EnsureFileWithPath, if_pos hg, filesAtPath]
      rw [if_pos trivial]
      have hz : filesAtPath gs f.path = [] := by
        have hl := hone
        simp only [filesAtPath, if_pos hg, List.length_cons] at hl
        have hlen : (filesAtPath gs f.path).length = 0 := by omega
        exact List.length_eq_zero.mp hlen
      rw [hz]
    · simp only [EnsureFileWithPath, if_neg hg, filesAtPath, if_neg hg]
      apply ih
      simpa [filesAtPath, if_neg hg] using hone

theorem EnsureFileWithPath_id (fs : List File) (f : File)
    (h : filesAtPath fs f.path = [f]) :
    EnsureFileWithPath fs f = fs := by
  induction fs with
  | nil => simp [filesAtPath] at h
  | cons g gs ih =>
    by_cases hg : g.path = f.path
    · simp only [filesAtPath, if_pos hg] at h
      injection h with h1 h2
      simp only [EnsureFileWithPath, if_pos hg]
      rw [h1]
    · simp only [filesAtPath, if_neg hg] at h
      simp only [EnsureFileWithPath, if_neg hg]
      rw [ih h]

theorem oscStepKubeletUnit_ok (deps : MutatorDeps) (osc osc' : OperatingSystemConfig)
    (cs : List EnsurerCall) (h : oscStepKubeletUnit deps osc = .ok (osc', cs)) :
    osc'.files = osc.files ∧ osc'.namespaceName = osc.namespaceName := by
  unfold oscStepKubeletUnit at h
  split at h
  · next u hu =>
    split at h
    · next content hc =>
      split at h
      · next e he => simp at h
      · next content' calls' he =>
        simp only [Except.ok.injEq, Prod.mk.injEq] at h
        rw [← h.1]
        exact ⟨rfl, rfl⟩
    · next hc =>
      simp only [Except.ok.injEq, Prod.mk.injEq] at h
      rw [← h.1]
      exact ⟨rfl, rfl⟩
  · next hu =>
    simp only [Except.ok.injEq, Prod.mk.injEq] at h
    rw [← h.1]
    exact ⟨rfl, rfl⟩

theorem oscStepKubeletConfigFile_ok (deps : MutatorDeps) (osc osc' : OperatingSystemConfig)
    (cs : List EnsurerCall) (h : oscStepKubeletConfigFile deps osc = .ok (osc', cs)) :
    osc'.namespaceName = osc.namespaceName ∧
    ∀ q, q ≠ kubeletConfigFilePath → filesAtPath osc'.files q = filesAtPath osc.files q := by
  unfold oscStepKubeletConfigFile at h
  split at h
  · next f hf =>
    split at h
    · next fciv hc =>
      split at h
      · next e he => simp at h
      · next fci' calls' he =>
        simp only [Except.ok.injEq, Prod.mk.injEq] at h
        rw [← h.1]
        refine ⟨rfl, ?_⟩
        intro q hq
        exact setFileInline_filesAtPath_ne osc.files kubeletConfigFilePath fci' q hq
    · next hc =>
      simp only [Except.ok.injEq, Prod.mk.injEq] at h
      rw [← h.1]
      exact ⟨rfl, fun q _ => rfl⟩
  · next hf =>
    simp only [Except.ok.injEq, Prod.mk.injEq] at h
    rw [← h.1]
    exact ⟨rfl, fun q _ => rfl⟩

theorem oscStepGeneralConfigFile_ok (deps : MutatorDeps) (osc osc' : OperatingSystemConfig)
    (cs : List EnsurerCall) (h : oscStepGeneralConfigFile deps osc = .ok (osc', cs)) :
    osc'.namespaceName = osc.namespaceName ∧
    ∀ q, q ≠ generalConfigFilePath → filesAtPath osc'.files q = filesAtPath osc.files q := by
  unfold oscStepGeneralConfigFile at h
  split at h
  · next f hf =>
    split at h
    · next fciv hc =>
      split at h
      · next e he => simp at h
      · next fci' calls' he =>
        simp only [Except.ok.injEq, Prod.mk.injEq] at h
        rw [← h.1]
        refine ⟨rfl, ?_⟩
        intro q hq
        exact setFileInline_filesAtPath_ne osc.files generalConfigFilePath fci' q hq
    · next hc =>
      simp only [Except.ok.injEq, Prod.mk.injEq] at h
      rw [← h.1]
      exact ⟨rfl, fun q _ => rfl⟩
  · next hf =>
    simp only [Except.ok.injEq, Prod.mk.injEq] at h
    rw [← h.1]
    exact ⟨rfl, fun q _ => rfl⟩

/-- C7: when the provider requires a kubelet cloud provider config, the
hook yields text `T`, encoding `T` under the fixed b64 identifier yields
`fci`, and the input object has at most one file entry at the fixed
cloud provider config path, then a successful mutation leaves exactly
one entry at that path — permissions 0644, inline content `fci` — and
running the cloud-provider-config step again on the result replaces that
single entry in place, returning the object unchanged rather than
appending a duplicate. -/
theorem C7_cloud_provider_config_upsert (deps : MutatorDeps)
    (osc osc' : OperatingSystemConfig) (calls : List EnsurerCall) (T : String)
    (fci : FileContentInline)
    (hshould : deps.ensurer.shouldProvisionKubeletCloudProviderConfig = true)
    (hhook : deps.ensurer.ensureKubeletCloudProviderConfig "" osc.namespaceName = .ok T)
    (henc : deps.fciEncode T b64FileCodecID = .ok fci)
    (hone : (filesAtPath osc.files cloudProviderConfigPath).length ≤ 1)
    (hmut : mutateOperatingSystemConfig deps osc = .ok (osc', calls)) :
    filesAtPath osc'.files cloudProviderConfigPath =
      [⟨cloudProviderConfigPath, some 0o644, some fci⟩] ∧
    osc'.namespaceName = osc.namespaceName ∧
    ensureKubeletCloudProviderConfigStep deps osc' =
      .ok (osc', [.kubeletCloudProviderConfig]) := by
  unfold mutateOperatingSystemConfig at hmut
  split at hmut
  · next e h1 => simp at hmut
  · next osc1 c1 h1 =>
    split at hmut
    · next e h2 => simp at hmut
    · next osc2 c2 h2 =>
      split at hmut
      · next e h3 => simp at hmut
      · next osc3 c3 h3 =>
        split at hmut
        · next e h4 => simp at hmut
        · next osc4 c4 h4 =>
          simp only [Except.ok.injEq, Prod.mk.injEq] at hmut
          obtain ⟨hosc, hcalls⟩ := hmut
          obtain ⟨hfiles1, hns1⟩ := oscStepKubeletUnit_ok deps osc osc1 c1 h1
          obtain ⟨hns2, hfp2⟩ := oscStepKubeletConfigFile_ok deps osc1 osc2 c2 h2
          obtain ⟨hns3, hfp3⟩ := oscStepGeneralConfigFile_ok deps osc2 osc3 c3 h3
          have hnsc : osc3.namespaceName = osc.namespaceName := by
            rw [hns3, hns2, hns1]
          have hfpc : filesAtPath osc3.files cloudProviderConfigPath =
              filesAtPath osc.files cloudProviderConfigPath := by
            rw [hfp3 cloudProviderConfigPath (by decide),
              hfp2 cloudProviderConfigPath (by decide), hfiles1]
          have hstep : ensureKubeletCloudProviderConfigStep deps osc3 =
              .ok ({ osc3 with files := EnsureFileWithPath osc3.files ⟨cloudProviderConfigPath, some 0o644, some fci⟩ },
                [.kubeletCloudProviderConfig]) := by
            unfold ensureKubeletCloudProviderConfigStep
            rw [hnsc, hhook]
            dsimp only
            rw [henc]
          unfold oscStepCloudProviderConfig at h4
          rw [if_pos hshould, hstep] at h4
          dsimp only at h4
          simp only [Except.ok.injEq, Prod.mk.injEq] at h4
          have hosc4 : osc4 = { osc3 with files := EnsureFileWithPath osc3.files ⟨cloudProviderConfigPath, some 0o644, some fci⟩ } :=
            h4.1.symm
          have hone3 : (filesAtPath osc3.files cloudProviderConfigPath).length ≤ 1 := by
            rw [hfpc]
            exact hone
          have hat : filesAtPath osc'.files cloudProviderConfigPath =
              [⟨cloudProviderConfigPath, some 0o644, some fci⟩] := by
            rw [← hosc, hosc4]
            exact EnsureFileWithPath_atPath osc3.files _ hone3
          have hns' : osc'.namespaceName = osc.namespaceName := by
            rw [← hosc, hosc4]
            exact hnsc
          refine ⟨hat, hns', ?_⟩
          unfold ensureKubeletCloudProviderConfigStep
          rw [hns', hhook]
          dsimp only
          rw [henc]
          dsimp only
          rw [EnsureFileWithPath_id osc'.files _ hat, ← hns']

/-- C7 witness: mutating the empty reconcile OperatingSystemConfig with
`idDeps` yields exactly one cloud provider config entry at the fixed
path with permissions 0644 and the encoded "CONFIG" content, and running
the step again returns the object unchanged. -/
theorem C7_witness :
    filesAtPath oscC7Result.files cloudProviderConfigPath =
      [⟨cloudProviderConfigPath, some 0o644, some ⟨"b64", "CONFIG"⟩⟩] ∧
    ensureKubeletCloudProviderConfigStep idDeps oscC7Result =
      .ok (oscC7Result, [.kubeletCloudProviderConfig]) := by
  have h := C7_cloud_provider_config_upsert idDeps oscEmpty oscC7Result
    [.shouldProvisionCheck, .kubeletCloudProviderConfig] "CONFIG" ⟨"b64", "CONFIG"⟩
    rfl rfl rfl (by decide) rfl
  exact ⟨h.1, h.2.2⟩
